/-
Verification of the Galaxies-Server game core.

Shallow embedding of the Go sources:
  internal/game/models.go    -- data structures
  internal/game/state.go     -- global state (here: an explicit GameState record)
  internal/game/mechanics.go -- physics helpers (distance, mass, burn rate)
  internal/game/economy.go   -- market heat, replenishment, contract generation
  internal/api/handlers.go   -- accept/travel/refuel/buy-module/drop handlers
  internal/api/hub.go        -- websocket hub broadcast step

Modelling conventions:
  * Go `int` / `int64` are embedded as `Int` (no claim here depends on
    64-bit wrap-around).
  * Go `float64` market heat is embedded as `ℚ`; the heat updates in the
    source are additions, subtractions, max/min and comparisons, which ℚ
    models exactly.
  * `math.Sqrt` followed by `math.Round` in CalculateDistance is embedded
    as the exactly-rounded integer square root (`roundSqrt`).
  * Go maps with zero-value-on-miss reads (`AvailableContracts`) are
    embedded as total functions with default `[]`; the two-level heat maps,
    which the code iterates over and nil-tests, are association lists.
  * An HTTP handler that writes an error status and returns before touching
    any global is embedded as a function into `Except GameError GameState`:
    a `.error` result carries no state, i.e. the caller's state is
    unchanged by construction.  Mutating paths return `.ok` with the new
    state.  HTTP statuses are mapped to the spec's error taxonomy:
    404 ↦ notFound, and 400/402/403/409 precondition failures
    ↦ preconditionFailed.
  * `math/rand` draws and `time.Now()` are oracle streams threaded through
    the contract generator (`Rand` with a cursor).  The destination
    resample loop of the generator, which retries until it draws a planet
    different from the origin, is embedded with an explicit retry bound;
    exhausting the bound — like indexing an empty slice, which panics in
    Go — yields `none` from the generator ("no defined result").
-/
import Mathlib

namespace Galaxies

/-! ## Data model (internal/game/models.go) -/

/-- GameBalance from models.go: global tuning constants. -/
structure GameBalance where
  startingCredits : Int
  fuelCostPerUnit : Int
  fuelMassPerUnit : Int
  distancePayoutMult : Int
  deriving DecidableEq

/-- ShipModule from models.go. -/
structure ShipModule where
  key : String
  name : String
  cost : Int
  statModifier : String
  statValue : Int
  deriving DecidableEq

/-- Contract from models.go: a cargo or passenger job. -/
structure Contract where
  id : String
  type : String
  itemName : String
  itemKey : String
  quantity : Int
  massPerUnit : Int
  originKey : String
  destinationKey : String
  payout : Int
  deriving DecidableEq

/-- Planet from models.go: a static location. -/
structure Planet where
  key : String
  name : String
  coordinates : List Int
  production : List String
  demand : List String
  minCargo : Int
  maxCargo : Int
  minPassengers : Int
  maxPassengers : Int
  deriving DecidableEq

/-- Ship from models.go: the player's vessel. -/
structure Ship where
  name : String
  locationKey : String
  credits : Int
  fuel : Int
  maxFuel : Int
  baseBurnRate : Int
  burnDamping : Int
  baseMass : Int
  cargoCapacity : Int
  passengerSlots : Int
  maxModuleSlots : Int
  installedModules : List ShipModule
  activeContracts : List Contract
  deriving DecidableEq

/-- PassengerConfig from models.go. -/
structure PassengerConfig where
  baseTicketPrice : Int
  massPerPassenger : Int
  deriving DecidableEq

/-- Commodity from models.go. -/
structure Commodity where
  key : String
  name : String
  baseValue : Int
  mass : Int
  deriving DecidableEq

/-- Universe from models.go: the static world configuration. -/
structure Universe where
  balanceConfig : GameBalance
  commodities : List Commodity
  planets : List Planet
  shipModules : List ShipModule
  passengerConfig : PassengerConfig
  deriving DecidableEq

/-- One level of a Go `map[string]map[string]float64` heat map: an
association list from commodity key to heat.  A missing key reads as the
float zero value, as in Go. -/
abbrev InnerHeat : Type := List (String × ℚ)

/-- MarketState from models.go: SourceHeat and DestHeat, keyed by planet
then commodity.  The outer level distinguishes a present (possibly empty)
inner map from an absent one, because economy.go nil-tests it. -/
structure MarketState where
  sourceHeat : List (String × InnerHeat)
  destHeat : List (String × InnerHeat)

/-- The full mutable world state of state.go (the package-level globals
`CurrentUniverse`, `PlayerShip`, `AvailableContracts`, `Market`), gathered
in one record and threaded explicitly. -/
structure GameState where
  currentUniverse : Universe
  ship : Ship
  boards : String → List Contract
  market : MarketState

/-- Reading `m[planet][commodity]` in Go: a nil outer or missing inner
entry reads as 0.0. -/
def heatLookup (m : List (String × InnerHeat)) (planetKey commodityKey : String) : ℚ :=
  match m.lookup planetKey with
  | none => 0
  | some inner => (inner.lookup commodityKey).getD 0

/-- `inner[k] += v` on a Go inner map: add to the present entry, or set the
entry to `0 + v` when absent (Go reads the zero value then stores). -/
def innerAdd (inner : InnerHeat) (commodityKey : String) (v : ℚ) : InnerHeat :=
  match inner with
  | [] => [(commodityKey, v)]
  | (k, h) :: rest =>
      if k = commodityKey then (k, h + v) :: rest
      else (k, h) :: innerAdd rest commodityKey v

/-- `m[planet][commodity] += v` when the outer entry is present; the
callers (RecordAcceptance/RecordDelivery) have already nil-tested it. -/
def outerAdd (m : List (String × InnerHeat)) (planetKey commodityKey : String) (v : ℚ) :
    List (String × InnerHeat) :=
  match m with
  | [] => []
  | (p, inner) :: rest =>
      if p = planetKey then (p, innerAdd inner commodityKey v) :: rest
      else (p, inner) :: outerAdd rest planetKey commodityKey v

/-! ## Market heat (internal/game/economy.go) -/

/-- RecordAcceptance from economy.go: bump SourceHeat by 0.01 per unit
accepted; no-op when the origin planet is unknown (nil inner map). -/
def RecordAcceptance (m : MarketState) (originKey itemKey : String) (qty : Int) : MarketState :=
  match m.sourceHeat.lookup originKey with
  | none => m
  | some _ => { m with sourceHeat := outerAdd m.sourceHeat originKey itemKey ((qty : ℚ) * (1 / 100)) }

/-- RecordDelivery from economy.go: bump DestHeat by 0.02 per unit
delivered; no-op when the destination planet is unknown. -/
def RecordDelivery (m : MarketState) (destKey itemKey : String) (qty : Int) : MarketState :=
  match m.destHeat.lookup destKey with
  | none => m
  | some _ => { m with destHeat := outerAdd m.destHeat destKey itemKey ((qty : ℚ) * (2 / 100)) }

/-- The per-entry update of MarketTick (economy.go lines 68-87): move a
heat value a fixed step of 0.05 toward 1.0, clamped at 1.0. -/
def tickHeat (h : ℚ) : ℚ :=
  if h > 1 then max 1 (h - 5 / 100)
  else if h < 1 then min 1 (h + 5 / 100)
  else h

/-- MarketTick applies `tickHeat` to every entry of a two-level heat map. -/
def tickMap (m : List (String × InnerHeat)) : List (String × InnerHeat) :=
  m.map (fun pe => (pe.1, pe.2.map (fun ce => (ce.1, tickHeat ce.2))))

/-- MarketTick from economy.go: decay every SourceHeat and DestHeat entry
toward neutral. -/
def MarketTick (m : MarketState) : MarketState :=
  { sourceHeat := tickMap m.sourceHeat, destHeat := tickMap m.destHeat }

/-! ## Physics (internal/game/mechanics.go) -/

/-- GetPlanet from mechanics.go: first planet with the given key, if any. -/
def GetPlanet (u : Universe) (key : String) : Option Planet :=
  u.planets.find? (fun p => p.key == key)

/-- GetCommodity from mechanics.go. -/
def GetCommodity (u : Universe) (key : String) : Option Commodity :=
  u.commodities.find? (fun c => c.key == key)

/-- GetModule from mechanics.go. -/
def GetModule (u : Universe) (key : String) : Option ShipModule :=
  u.shipModules.find? (fun m => m.key == key)

/-- Integer square root rounded to nearest (ties cannot occur on integer
radicands): the embedding of `math.Round (math.Sqrt n)`. -/
def roundSqrt (n : Nat) : Nat :=
  let k := Nat.sqrt n
  if k * k + k < n then k + 1 else k

/-- CalculateDistance from mechanics.go: Euclidean distance between two
integer 2-D coordinates, rounded to nearest; 0 when either coordinate has
fewer than 2 components. -/
def CalculateDistance (p1 p2 : List Int) : Int :=
  match p1, p2 with
  | x1 :: y1 :: _, x2 :: y2 :: _ =>
      (roundSqrt (((x2 - x1) ^ 2 + (y2 - y1) ^ 2).toNat) : Int)
  | _, _ => 0

/-- The mass contribution of one active contract in CalculateTotalMass:
cargo uses the contract's own mass-per-unit, anything else is weighed as
passengers using the configured passenger mass. -/
def contractMass (u : Universe) (c : Contract) : Int :=
  if c.type = "cargo" then c.massPerUnit * c.quantity
  else u.passengerConfig.massPerPassenger * c.quantity

/-- CalculateTotalMass from mechanics.go: base mass + active contract mass
+ fuel mass. -/
def CalculateTotalMass (u : Universe) (s : Ship) : Int :=
  (s.activeContracts.foldl (fun acc c => acc + contractMass u c) s.baseMass)
    + s.fuel * u.balanceConfig.fuelMassPerUnit

/-- CalculateCurrentBurn from mechanics.go: base burn adjusted by the
damped difference between current mass and the reference mass (chassis +
half a tank), clamped below at 100.  Go's `/` on int64 truncates toward
zero, which `Int.tdiv` models. -/
def CalculateCurrentBurn (u : Universe) (s : Ship) : Int :=
  let currentMass := CalculateTotalMass u s
  let halfFuel := Int.tdiv s.maxFuel 2
  let halfFuelMass := halfFuel * u.balanceConfig.fuelMassPerUnit
  let referenceMass := s.baseMass + halfFuelMass
  let massDiff := currentMass - referenceMass
  let burnAdjustment := Int.tdiv massDiff s.burnDamping
  let finalBurn := s.baseBurnRate + burnAdjustment
  if finalBurn < 100 then 100 else finalBurn

/-! ## Request handlers (internal/api/handlers.go)

Each handler is a function from the current `GameState` (plus request
data) to `Except GameError GameState`.  In handlers.go every error path
calls `http.Error` and returns before any global is mutated, so a
`.error` result means the state is unchanged. -/

/-- The spec's error taxonomy (§7), which the handlers' HTTP statuses map
onto: 404 ↦ `notFound`; the capacity / fuel / credits / full-tank /
wrong-location rejections (409/402/400/403) ↦ `preconditionFailed`;
malformed request bodies (400 from JSON decoding) ↦ `validationError`. -/
inductive GameError where
  | validationError
  | notFound
  | preconditionFailed
  deriving DecidableEq

/-- The find-then-erase pattern of HandleAcceptContract/HandleDropContract:
locate the first contract with the given id and return it together with
the list with that occurrence removed (Go: linear scan for the index, then
`append(xs[:i], xs[i+1:]...)`). -/
def extractContract : List Contract → String → Option (Contract × List Contract)
  | [], _ => none
  | c :: rest, cid =>
      if c.id = cid then some (c, rest)
      else (extractContract rest cid).map (fun p => (p.1, c :: p.2))

/-- The cargo side of the capacity count in HandleAcceptContract: total
quantity of active contracts whose type is "cargo". -/
def cargoLoad (contracts : List Contract) : Int :=
  contracts.foldl (fun acc c => if c.type = "cargo" then acc + c.quantity else acc) 0

/-- The passenger side of the capacity count in HandleAcceptContract:
total quantity of active contracts of any non-"cargo" type (the Go loop's
`else` branch). -/
def paxLoad (contracts : List Contract) : Int :=
  contracts.foldl (fun acc c => if c.type = "cargo" then acc else acc + c.quantity) 0

/-- HandleAcceptContract from handlers.go: move a contract from the board
at the ship's current location onto the ship, after validating capacity;
record source-heat acceptance pressure. -/
def HandleAcceptContract (s : GameState) (contractID : String) : Except GameError GameState :=
  let location := s.ship.locationKey
  let board := s.boards location
  match extractContract board contractID with
  | none => .error .notFound
  | some (target, newBoard) =>
      if target.type = "cargo" ∧
          cargoLoad s.ship.activeContracts + target.quantity > s.ship.cargoCapacity then
        .error .preconditionFailed
      else if target.type = "passenger" ∧
          paxLoad s.ship.activeContracts + target.quantity > s.ship.passengerSlots then
        .error .preconditionFailed
      else
        .ok { s with
          ship := { s.ship with activeContracts := s.ship.activeContracts ++ [target] },
          boards := fun k => if k = location then newBoard else s.boards k,
          market := RecordAcceptance s.market target.originKey target.itemKey target.quantity }

/-- The delivery loop of HandleTravel: fold over the active contracts,
keeping non-matching ones (in order), summing payouts of delivered ones
and recording each delivery in the market state. -/
def deliverStep (newLoc : String) (acc : List Contract × Int × MarketState) (c : Contract) :
    List Contract × Int × MarketState :=
  if c.destinationKey = newLoc then
    (acc.1, acc.2.1 + c.payout, RecordDelivery acc.2.2 c.destinationKey c.itemKey c.quantity)
  else
    (acc.1 ++ [c], acc.2.1, acc.2.2)

/-- HandleTravel from handlers.go.  The outer `Option` distinguishes the
undefined behaviour: when the destination exists but the ship's current
location does not, the Go code dereferences the nil `current` planet
pointer (`current.Coordinates`) and panics; that path is `none`. -/
def HandleTravel (s : GameState) (destinationKey : String) :
    Option (Except GameError GameState) :=
  match GetPlanet s.currentUniverse destinationKey with
  | none => some (.error .notFound)
  | some dest =>
      match GetPlanet s.currentUniverse s.ship.locationKey with
      | none => none
      | some current =>
          let dist := CalculateDistance current.coordinates dest.coordinates
          let currentBurn := CalculateCurrentBurn s.currentUniverse s.ship
          let fuelNeeded := dist * currentBurn
          if s.ship.fuel < fuelNeeded then some (.error .preconditionFailed)
          else
            let res := s.ship.activeContracts.foldl (deliverStep dest.key) ([], 0, s.market)
            some (.ok { s with
              ship := { s.ship with
                fuel := s.ship.fuel - fuelNeeded,
                locationKey := dest.key,
                activeContracts := res.1,
                credits := s.ship.credits + res.2.1 },
              market := res.2.2 })

/-- TravelQuoteResponse from handlers.go. -/
structure TravelQuoteResponse where
  distance : Int
  fuelCost : Int
  canAfford : Bool
  burnRate : Int
  deriving DecidableEq

/-- HandleTravelQuote from handlers.go: the same distance/burn computation
as HandleTravel with no mutation.  As in HandleTravel, a known destination
with an unknown current location dereferences nil (`none`). -/
def HandleTravelQuote (s : GameState) (destinationKey : String) :
    Option (Except GameError TravelQuoteResponse) :=
  match GetPlanet s.currentUniverse destinationKey with
  | none => some (.error .notFound)
  | some dest =>
      match GetPlanet s.currentUniverse s.ship.locationKey with
      | none => none
      | some current =>
          let dist := CalculateDistance current.coordinates dest.coordinates
          let currentBurn := CalculateCurrentBurn s.currentUniverse s.ship
          let fuelNeeded := dist * currentBurn
          some (.ok {
            distance := dist,
            fuelCost := fuelNeeded,
            canAfford := s.ship.fuel ≥ fuelNeeded,
            burnRate := currentBurn })

/-- HandleRefuel from handlers.go: top the tank up to MaxFuel for
`(fuelNeeded / 100) * FuelCostPerUnit` credits (truncating division). -/
def HandleRefuel (s : GameState) : Except GameError GameState :=
  let fuelNeeded := s.ship.maxFuel - s.ship.fuel
  if fuelNeeded ≤ 0 then .error .preconditionFailed
  else
    let cost := Int.tdiv fuelNeeded 100 * s.currentUniverse.balanceConfig.fuelCostPerUnit
    if s.ship.credits < cost then .error .preconditionFailed
    else .ok { s with
      ship := { s.ship with credits := s.ship.credits - cost, fuel := s.ship.maxFuel } }

/-- HandleBuyModule from handlers.go: only at "planet_prime", needs a free
slot, a known module and enough credits; installs the module and applies
its stat modifier. -/
def HandleBuyModule (s : GameState) (moduleKey : String) : Except GameError GameState :=
  if s.ship.locationKey ≠ "planet_prime" then .error .preconditionFailed
  else if (s.ship.installedModules.length : Int) ≥ s.ship.maxModuleSlots then
    .error .preconditionFailed
  else
    match GetModule s.currentUniverse moduleKey with
    | none => .error .notFound
    | some m =>
        if s.ship.credits < m.cost then .error .preconditionFailed
        else
          let ship := { s.ship with
            credits := s.ship.credits - m.cost,
            installedModules := s.ship.installedModules ++ [m] }
          let ship :=
            if m.statModifier = "cargo_capacity" then
              { ship with cargoCapacity := ship.cargoCapacity + m.statValue }
            else if m.statModifier = "passenger_slots" then
              { ship with passengerSlots := ship.passengerSlots + m.statValue }
            else ship
          .ok { s with ship := ship }

/-- HandleDropContract from handlers.go: remove a contract from the ship's
active list; the contract is destroyed, not returned to any board. -/
def HandleDropContract (s : GameState) (contractID : String) : Except GameError GameState :=
  match extractContract s.ship.activeContracts contractID with
  | none => .error .notFound
  | some (_, rest) => .ok { s with ship := { s.ship with activeContracts := rest } }

/-! ## Contract generation and replenishment (internal/game/economy.go)

`math/rand` and `time.Now()` are modelled as oracle streams read at an
explicit cursor; every draw advances the cursor by one.  A `none` result
marks a path with no defined Go result: indexing an empty slice or calling
`rand.Intn` with a non-positive bound (both panic), or the destination
resample loop failing to draw a planet different from the origin within
`resampleBound` tries (in Go that loop just keeps drawing). -/

/-- Oracle streams standing for `math/rand` and the sub-second clock. -/
structure Rand where
  ints : Nat → Nat
  floats : Nat → ℚ
  times : Nat → Nat

/-- `rand.Intn(n)`: uniform in `[0, n)`; Go panics when `n ≤ 0`. -/
def randIntn (r : Rand) (k : Nat) (n : Int) : Option (Int × Nat) :=
  if n ≤ 0 then none else some (((r.ints k % n.toNat : Nat) : Int), k + 1)

/-- Bound on the destination resample loop of the generators. -/
def resampleBound : Nat := 64

/-- The `for dest.Key == origin.Key` resample loop of economy.go: draw a
uniformly random planet, redrawing while it equals the origin. -/
def pickDest (ps : List Planet) (originKey : String) (r : Rand) :
    Nat → Nat → Option (Planet × Nat)
  | _, 0 => none
  | k, fuel + 1 =>
      match ps.get? (r.ints k % ps.length) with
      | none => none
      | some p =>
          if p.key = originKey then pickDest ps originKey r (k + 1) fuel
          else some (p, k + 1)

/-- `CurrentUniverse.Commodities[rand.Intn(len(...))]` (panics when the
commodity catalog is empty). -/
def randomCommodity (u : Universe) (r : Rand) (k : Nat) : Option (Commodity × Nat) :=
  match u.commodities.get? (r.ints k % u.commodities.length) with
  | none => none
  | some c => some (c, k + 1)

/-- Step 1 of generateCargoJobs: with probability 0.8 pick one of the
origin's production commodities (falling back to a global random commodity
when the key does not resolve), otherwise a global random commodity; the
0.8-coin is only tossed when the production list is non-empty. -/
def pickCommodity (u : Universe) (origin : Planet) (r : Rand) (k : Nat) :
    Option (Commodity × Nat) :=
  if origin.production = [] then randomCommodity u r k
  else if r.floats k < 4 / 5 then
    match origin.production.get? (r.ints (k + 1) % origin.production.length) with
    | none => none
    | some prodKey =>
        match GetCommodity u prodKey with
        | some c => some (c, k + 2)
        | none => randomCommodity u r (k + 2)
  else randomCommodity u r (k + 1)

/-- Truncation toward zero of a rational: the embedding of Go's
float64-to-int conversion on a finite value. -/
def truncQ (q : ℚ) : Int := if 0 ≤ q then q.floor else q.ceil

/-- One iteration of the generateCargoJobs loop.  `some (none, k')` is the
scarcity `continue`: when post-tick source heat exceeds 1.0 a uniform draw
`f` is taken and the unit is skipped when `f * heat > 1.5`. -/
def genCargoUnit (u : Universe) (m : MarketState) (origin : Planet) (r : Rand) (k : Nat) :
    Option (Option Contract × Nat) :=
  match pickCommodity u origin r k with
  | none => none
  | some (comm, k1) =>
      let sourceHeat := heatLookup m.sourceHeat origin.key comm.key
      let k2 := if sourceHeat > 1 then k1 + 1 else k1
      if sourceHeat > 1 ∧ r.floats k1 * sourceHeat > 3 / 2 then some (none, k2)
      else
        match pickDest u.planets origin.key r k2 resampleBound with
        | none => none
        | some (dest, k3) =>
            let qty : Int := ((r.ints k3 % 21 : Nat) : Int) + 5
            let k4 := k3 + 1
            let dist := CalculateDistance origin.coordinates dest.coordinates
            let destHeat := heatLookup m.destHeat dest.key comm.key
            let priceMod : ℚ := 1 / destHeat
            let basePayout : Int :=
              dist * u.balanceConfig.distancePayoutMult + Int.tdiv (comm.baseValue * qty) 2
            let finalPayout := truncQ ((basePayout : ℚ) * priceMod)
            let cid := "CRG-" ++ toString (r.ints k4 % 99999) ++ "-"
              ++ toString (r.times (k4 + 1) % 1000)
            some (some {
              id := cid, type := "cargo", itemName := comm.name, itemKey := comm.key,
              quantity := qty, massPerUnit := comm.mass,
              originKey := origin.key, destinationKey := dest.key,
              payout := finalPayout }, k4 + 2)

/-- generateCargoJobs from economy.go: run `count` units, collecting the
contracts of the non-skipped ones in order. -/
def generateCargoJobs (u : Universe) (m : MarketState) (origin : Planet) (r : Rand) :
    Nat → Nat → Option (List Contract × Nat)
  | k, 0 => some ([], k)
  | k, n + 1 =>
      match genCargoUnit u m origin r k with
      | none => none
      | some (job?, k1) =>
          match generateCargoJobs u m origin r k1 n with
          | none => none
          | some (jobs, k2) => some (job?.toList ++ jobs, k2)

/-- One iteration of the generatePassengerJobs loop: quantity is always 1,
payout is `dist × 15 + baseTicketPrice` with no market-heat modifier. -/
def genPaxUnit (u : Universe) (origin : Planet) (r : Rand) (k : Nat) :
    Option (Contract × Nat) :=
  match pickDest u.planets origin.key r k resampleBound with
  | none => none
  | some (dest, k1) =>
      let dist := CalculateDistance origin.coordinates dest.coordinates
      let payout := dist * 15 + u.passengerConfig.baseTicketPrice
      let cid := "PAX-" ++ toString (r.ints k1 % 99999) ++ "-"
        ++ toString (r.times (k1 + 1) % 1000)
      some ({ id := cid, type := "passenger", itemName := "Passenger",
              itemKey := "passenger", quantity := 1,
              massPerUnit := u.passengerConfig.massPerPassenger,
              originKey := origin.key, destinationKey := dest.key,
              payout := payout }, k1 + 2)

/-- generatePassengerJobs from economy.go. -/
def generatePassengerJobs (u : Universe) (origin : Planet) (r : Rand) :
    Nat → Nat → Option (List Contract × Nat)
  | k, 0 => some ([], k)
  | k, n + 1 =>
      match genPaxUnit u origin r k with
      | none => none
      | some (job, k1) =>
          match generatePassengerJobs u origin r k1 n with
          | none => none
          | some (jobs, k2) => some (job :: jobs, k2)

/-- The number of contracts of a given type on a board. -/
def countType (board : List Contract) (t : String) : Nat :=
  board.countP (fun c => c.type == t)

/-- Pointwise update of the board map at one key. -/
def updateBoard (boards : String → List Contract) (key : String) (v : List Contract) :
    String → List Contract :=
  fun x => if x = key then v else boards x

/-- The defaulted cargo board targets of ReplenishMarket: `{5,15}` when
the configured max is 0, else the planet's own (min, max). -/
def cargoTargets (p : Planet) : Int × Int :=
  if p.maxCargo = 0 then (5, 15) else (p.minCargo, p.maxCargo)

/-- The defaulted passenger board targets of ReplenishMarket: `{2,8}` when
the configured max is 0, else the planet's own (min, max). -/
def paxTargets (p : Planet) : Int × Int :=
  if p.maxPassengers = 0 then (2, 8) else (p.minPassengers, p.maxPassengers)

/-- The `--- CARGO CHECK ---` block of ReplenishMarket's per-planet loop:
if the cargo count is below the (defaulted) minimum, draw a target in
`[min, max]` and generate the shortfall. -/
def replenishCargo (u : Universe) (m : MarketState) (r : Rand)
    (boards : String → List Contract) (origin : Planet) (k : Nat) (upd : List String) :
    Option ((String → List Contract) × Nat × List String) :=
  let cargoCfg : Int × Int := cargoTargets origin
  let cargoCount : Int := countType (boards origin.key) "cargo"
  if cargoCount < cargoCfg.1 then
    match randIntn r k (cargoCfg.2 - cargoCfg.1 + 1) with
    | none => none
    | some (d, k1) =>
        let needed := d + cargoCfg.1 - cargoCount
        if needed > 0 then
          match generateCargoJobs u m origin r k1 needed.toNat with
          | none => none
          | some (jobs, k2) =>
              some (updateBoard boards origin.key (boards origin.key ++ jobs), k2,
                upd ++ [origin.key])
        else some (boards, k1, upd)
  else some (boards, k, upd)

/-- The `--- PASSENGER CHECK ---` block of ReplenishMarket's per-planet
loop, run on the board state left by the cargo phase; the updated-planet
list gets the origin key with the source's dedup check. -/
def replenishPax (u : Universe) (r : Rand)
    (boards1 : String → List Contract) (origin : Planet) (k1 : Nat) (upd1 : List String) :
    Option ((String → List Contract) × Nat × List String) :=
  let paxCfg : Int × Int := paxTargets origin
  let paxCount : Int := countType (boards1 origin.key) "passenger"
  if paxCount < paxCfg.1 then
    match randIntn r k1 (paxCfg.2 - paxCfg.1 + 1) with
    | none => none
    | some (d, k2) =>
        let needed := d + paxCfg.1 - paxCount
        if needed > 0 then
          match generatePassengerJobs u origin r k2 needed.toNat with
          | none => none
          | some (jobs, k3) =>
              some (updateBoard boards1 origin.key (boards1 origin.key ++ jobs), k3,
                if upd1.contains origin.key then upd1 else upd1 ++ [origin.key])
        else some (boards1, k2, upd1)
  else some (boards1, k1, upd1)

/-- The body of ReplenishMarket's per-planet loop: apply the `{5,15}` /
`{2,8}` defaults when the max is unset, then top up the cargo board and
the passenger board (recounted after the cargo phase, as in the source). -/
def replenishPlanet (u : Universe) (m : MarketState) (r : Rand)
    (boards : String → List Contract) (origin : Planet) (k : Nat) (upd : List String) :
    Option ((String → List Contract) × Nat × List String) :=
  match replenishCargo u m r boards origin k upd with
  | none => none
  | some (boards1, k1, upd1) => replenishPax u r boards1 origin k1 upd1

/-- The planet loop of ReplenishMarket. -/
def replenishLoop (u : Universe) (m : MarketState) (r : Rand) :
    List Planet → (String → List Contract) → Nat → List String →
    Option ((String → List Contract) × Nat × List String)
  | [], boards, k, upd => some (boards, k, upd)
  | p :: rest, boards, k, upd =>
      match replenishPlanet u m r boards p k upd with
      | none => none
      | some (boards', k', upd') => replenishLoop u m r rest boards' k' upd'

/-- ReplenishMarket from economy.go: run MarketTick first, then top up
every planet's boards; returns the new state, the updated-planet keys and
the final oracle cursor. -/
def ReplenishMarket (s : GameState) (r : Rand) (k : Nat) :
    Option (GameState × List String × Nat) :=
  let m := MarketTick s.market
  match replenishLoop s.currentUniverse m r s.currentUniverse.planets s.boards k [] with
  | none => none
  | some (boards', k', upd) =>
      some ({ s with market := m, boards := boards' }, upd, k')

/-! ## Broadcast hub (internal/api/hub.go)

The hub's `Run` loop services one channel event per iteration; the
broadcast case offers the message to every registered client's private
bounded queue (`send`, created with capacity 256 in ServeWs) without
blocking, closing and dropping any client whose queue is full.  The
client set is a Go map; we represent it as a list (one entry per client —
map keys are distinct pointers) and the queue as the list of buffered
messages. -/

/-- Capacity of a client's private send queue (ServeWs: `make(chan []byte, 256)`). -/
def queueCapacity : Nat := 256

/-- One registered observer: an identity and its buffered outbound queue. -/
structure Client where
  id : Nat
  send : List String
  deriving DecidableEq

/-- The hub's registered-client set. -/
structure Hub where
  clients : List Client
  deriving DecidableEq

/-- The non-blocking offer of the broadcast case: enqueue when the buffer
has space, otherwise `none` (the client is closed and dropped). -/
def offerMessage (msg : String) (c : Client) : Option Client :=
  if c.send.length < queueCapacity then some { c with send := c.send ++ [msg] } else none

/-- The `case message := <-h.Broadcast` arm of Hub.Run: one broadcast event
processed against every registered client. -/
def hubBroadcast (h : Hub) (msg : String) : Hub :=
  { clients := h.clients.filterMap (offerMessage msg) }

/-! ## Concrete fixtures used by witnesses and counterexamples -/

/-- A commodity for the demo universe. -/
def demoOre : Commodity := { key := "ore", name := "Ore", baseValue := 10, mass := 1 }

/-- The upgrade-hub planet at (0,0) (the spec's reference scenario). -/
def demoPlanetA : Planet :=
  { key := "planet_prime", name := "Prime", coordinates := [0, 0],
    production := ["ore"], demand := [], minCargo := 0, maxCargo := 5,
    minPassengers := 0, maxPassengers := 5 }

/-- A second planet at (3,4): distance 5 from the first. -/
def demoPlanetB : Planet :=
  { key := "planet_b", name := "Beta", coordinates := [3, 4],
    production := [], demand := [], minCargo := 0, maxCargo := 5,
    minPassengers := 0, maxPassengers := 5 }

/-- The demo balance: fuel mass 1 per unit, as in the spec scenario. -/
def demoBalance : GameBalance :=
  { startingCredits := 1000, fuelCostPerUnit := 3, fuelMassPerUnit := 1,
    distancePayoutMult := 2 }

/-- The demo world configuration. -/
def demoUniverse : Universe :=
  { balanceConfig := demoBalance, commodities := [demoOre],
    planets := [demoPlanetA, demoPlanetB], shipModules := [],
    passengerConfig := { baseTicketPrice := 50, massPerPassenger := 80 } }

/-- The spec's reference ship: baseBurnRate 100, burnDamping 1000, base
mass 1000, maxFuel 1000, at half fuel, no contracts. -/
def demoShip : Ship :=
  { name := "Demo", locationKey := "planet_prime", credits := 1000,
    fuel := 500, maxFuel := 1000, baseBurnRate := 100, burnDamping := 1000,
    baseMass := 1000, cargoCapacity := 100, passengerSlots := 4,
    maxModuleSlots := 3, installedModules := [], activeContracts := [] }

/-- A neutral market covering both demo planets and the demo commodity. -/
def demoMarket : MarketState :=
  { sourceHeat := [("planet_prime", [("ore", 1)]), ("planet_b", [("ore", 1)])],
    destHeat := [("planet_prime", [("ore", 1)]), ("planet_b", [("ore", 1)])] }

/-- The demo game state: reference ship at the hub, empty boards. -/
def demoState : GameState :=
  { currentUniverse := demoUniverse, ship := demoShip,
    boards := fun _ => [], market := demoMarket }

/-! ## Helper lemmas -/

/-- Truncating division by 100 of a value in `[0, 100)` is 0. -/
lemma tdiv100_eq_zero {a : Int} (h0 : 0 ≤ a) (h : a < 100) : Int.tdiv a 100 = 0 := by
  rw [Int.tdiv_eq_ediv h0 (by norm_num)]
  exact Int.ediv_eq_zero_of_lt h0 h

/-- The `if x < 100 then 100 else x` clamp of CalculateCurrentBurn is a
max with 100. -/
lemma clamp_eq_max (x : Int) : (if x < 100 then 100 else x) = max 100 x := by
  rcases lt_or_le x 100 with h | h
  · rw [if_pos h, max_eq_left h.le]
  · rw [if_neg (not_lt.mpr h), max_eq_right h]

/-- The mass fold of CalculateTotalMass as an initial value plus a sum. -/
lemma foldl_add_mass (u : Universe) (l : List Contract) (init : Int) :
    l.foldl (fun acc c => acc + contractMass u c) init
      = init + (l.map (contractMass u)).sum := by
  induction l generalizing init with
  | nil => simp
  | cons c t ih => simp [ih, add_assoc]

/-- Splitting the total contract mass into its cargo and passenger parts,
for a contract list whose types are all "cargo" or "passenger". -/
lemma mass_split (u : Universe) (l : List Contract)
    (hwt : ∀ c ∈ l, c.type = "cargo" ∨ c.type = "passenger") :
    (l.map (contractMass u)).sum =
      ((l.filter (fun c => c.type = "cargo")).map
        (fun c => c.massPerUnit * c.quantity)).sum +
      ((l.filter (fun c => c.type = "passenger")).map
        (fun c => u.passengerConfig.massPerPassenger * c.quantity)).sum := by
  induction l with
  | nil => simp
  | cons c t ih =>
      have ht : ∀ x ∈ t, x.type = "cargo" ∨ x.type = "passenger" :=
        fun x hx => hwt x (List.mem_cons_of_mem _ hx)
      rcases hwt c (List.mem_cons_self _ _) with h | h
      · simp [List.filter_cons, h, contractMass, ih ht]
        ring
      · simp [List.filter_cons, h, contractMass, ih ht]
        ring

/-! ## C6: burn-rate formula -/

/-- C6: for every ship state, the burn rate equals
`baseBurnRate + (totalMass − referenceMass)/burnDamping` (truncating
division, reference mass = base mass + half a full tank's fuel mass),
floor-clamped at 100 and hence never zero or negative; the total mass
decomposes into base mass, cargo mass, passenger mass and fuel mass; and
the spec's reference ship burns exactly 100. -/
theorem burn_rate_spec (u : Universe) (s : Ship)
    (hwt : ∀ c ∈ s.activeContracts, c.type = "cargo" ∨ c.type = "passenger") :
    CalculateCurrentBurn u s =
        max 100 (s.baseBurnRate +
          Int.tdiv
            (CalculateTotalMass u s -
              (s.baseMass + Int.tdiv s.maxFuel 2 * u.balanceConfig.fuelMassPerUnit))
            s.burnDamping) ∧
      100 ≤ CalculateCurrentBurn u s ∧
      CalculateTotalMass u s =
        s.baseMass +
          ((s.activeContracts.filter (fun c => c.type = "cargo")).map
            (fun c => c.massPerUnit * c.quantity)).sum +
          ((s.activeContracts.filter (fun c => c.type = "passenger")).map
            (fun c => u.passengerConfig.massPerPassenger * c.quantity)).sum +
          s.fuel * u.balanceConfig.fuelMassPerUnit ∧
      CalculateCurrentBurn demoUniverse demoShip = 100 := by
  refine ⟨?_, ?_, ?_, by decide⟩
  · unfold CalculateCurrentBurn
    exact clamp_eq_max _
  · unfold CalculateCurrentBurn
    rw [clamp_eq_max]
    exact le_max_left _ _
  · unfold CalculateTotalMass
    rw [foldl_add_mass, mass_split u _ hwt]
    ring

/-- Witness for C6 at the spec's reference ship (no active contracts). -/
theorem burn_rate_spec_witness : CalculateCurrentBurn demoUniverse demoShip = 100 :=
  (burn_rate_spec demoUniverse demoShip (by intro c hc; simp [demoShip] at hc)).2.2.2

/-! ## C10: nearly-full refuel is free -/

/-- C10: refuel cost uses truncating integer division
`(fuelNeeded / 100) × fuelCostPerUnit`, so with `0 < MaxFuel − Fuel < 100`
and a non-negative balance, refuel succeeds, debits exactly 0 credits and
sets the fuel to MaxFuel. -/
theorem refuel_nearly_full_is_free (s : GameState)
    (h1 : 0 < s.ship.maxFuel - s.ship.fuel)
    (h2 : s.ship.maxFuel - s.ship.fuel < 100)
    (h3 : 0 ≤ s.ship.credits) :
    HandleRefuel s = .ok { s with ship := { s.ship with fuel := s.ship.maxFuel } } := by
  unfold HandleRefuel
  rw [if_neg (by omega), tdiv100_eq_zero h1.le h2]
  rw [zero_mul, if_neg (by omega)]
  simp

/-- Witness for C10: tank at 950/1000, zero credits; refuel fills the tank
for free. -/
theorem refuel_nearly_full_is_free_witness :
    HandleRefuel { demoState with ship := { demoShip with fuel := 950, credits := 0 } } =
      .ok { demoState with ship := { demoShip with fuel := 1000, credits := 0 } } := by
  have h := refuel_nearly_full_is_free
    { demoState with ship := { demoShip with fuel := 950, credits := 0 } }
    (by decide) (by decide) (by decide)
  exact h

/-! ## C9: travel with an unknown current location crashes -/

/-- The demo state with the ship's location set to a key missing from the
planet catalog. -/
def lostState : GameState :=
  { demoState with ship := { demoShip with locationKey := "nowhere" } }

/-- C9: travel and travel-quote validate only the destination key; when
the destination exists but the ship's current location matches no planet,
both dereference the nil `current` pointer (no defined result, `none`),
and both are defined whenever the current location does exist. -/
theorem travel_unknown_current_crash (s : GameState) (destKey : String)
    (hdest : (GetPlanet s.currentUniverse destKey).isSome) :
    (GetPlanet s.currentUniverse s.ship.locationKey = none →
        HandleTravel s destKey = none ∧ HandleTravelQuote s destKey = none) ∧
    (∀ cur, GetPlanet s.currentUniverse s.ship.locationKey = some cur →
        (HandleTravel s destKey).isSome ∧ (HandleTravelQuote s destKey).isSome) := by
  obtain ⟨dest, hd⟩ := Option.isSome_iff_exists.mp hdest
  constructor
  · intro hcur
    unfold HandleTravel HandleTravelQuote
    rw [hd, hcur]
    exact ⟨rfl, rfl⟩
  · intro cur hcur
    unfold HandleTravel HandleTravelQuote
    rw [hd, hcur]
    constructor
    · dsimp only
      split <;> rfl
    · rfl

/-- Witness for C9: at location "nowhere", travelling to the known planet
"planet_b" has no defined result. -/
theorem travel_unknown_current_crash_witness :
    HandleTravel lostState "planet_b" = none ∧ HandleTravelQuote lostState "planet_b" = none :=
  (travel_unknown_current_crash lostState "planet_b" (by decide)).1 (by decide)

/-! ## Heat-map lookup lemmas -/

/-- Looking up a key after mapping the values of an association list. -/
lemma lookup_map_snd {α β : Type} (l : List (String × α)) (f : α → β) (k : String) :
    (l.map (fun e => (e.1, f e.2))).lookup k = (l.lookup k).map f := by
  induction l with
  | nil => rfl
  | cons e t ih =>
      obtain ⟨a, b⟩ := e
      by_cases h : k = a
      · simp [List.lookup, h]
      · have hb : (k == a) = false := beq_false_of_ne h
        simp [List.lookup, hb, ih]

/-- A present heat entry is updated pointwise by `tickHeat` under
`tickMap`. -/
lemma heatLookup_tickMap (m : List (String × InnerHeat)) (p c : String)
    (inner : InnerHeat) (h : ℚ)
    (hp : m.lookup p = some inner) (hc : inner.lookup c = some h) :
    heatLookup (tickMap m) p c = tickHeat h := by
  unfold heatLookup tickMap
  rw [lookup_map_snd, hp]
  show ((inner.map (fun ce => (ce.1, tickHeat ce.2))).lookup c).getD 0 = tickHeat h
  rw [lookup_map_snd, hc]
  rfl

/-- `tickHeat` moves a value toward 1 without crossing it. -/
lemma tickHeat_no_cross (h : ℚ) : (1 ≤ h → 1 ≤ tickHeat h) ∧ (h ≤ 1 → tickHeat h ≤ 1) := by
  unfold tickHeat
  constructor
  · intro hge
    rcases eq_or_lt_of_le hge with heq | hgt
    · rw [if_neg (by rw [← heq]; exact lt_irrefl 1), if_neg (by rw [← heq]; exact lt_irrefl 1)]
      exact hge
    · rw [if_pos hgt]
      exact le_max_left _ _
  · intro hle
    rcases eq_or_lt_of_le hle with heq | hlt
    · rw [if_neg (by rw [heq]; exact lt_irrefl 1), if_neg (by rw [heq]; exact lt_irrefl 1)]
      exact hle
    · rw [if_neg (by linarith), if_pos hlt]
      exact min_le_left _ _

/-- `tickHeat` does not increase the distance to 1. -/
lemma tickHeat_abs_le (h : ℚ) : |tickHeat h - 1| ≤ |h - 1| := by
  unfold tickHeat
  rcases lt_trichotomy h 1 with hlt | heq | hgt
  · rw [if_neg (by linarith), if_pos hlt]
    have h1 : h ≤ min 1 (h + 5 / 100) := le_min hlt.le (by linarith)
    have h2 : min 1 (h + 5 / 100) ≤ 1 := min_le_left _ _
    rw [abs_of_nonpos (by linarith), abs_of_nonpos (by linarith)]
    linarith
  · subst heq
    simp
  · rw [if_pos hgt]
    have h1 : max 1 (h - 5 / 100) ≤ h := max_le hgt.le (by linarith)
    have h2 : (1:ℚ) ≤ max 1 (h - 5 / 100) := le_max_left _ _
    rw [abs_of_nonneg (by linarith), abs_of_nonneg (by linarith)]
    linarith

/-- After enough ticks a heat value whose distance to 1 is at most
`k × 0.05` reaches exactly 1. -/
lemma tickHeat_iterate_eq_one : ∀ k : ℕ, ∀ h : ℚ,
    |h - 1| ≤ k * (5 / 100) → tickHeat^[k] h = 1 := by
  intro k
  induction k with
  | zero =>
      intro h hb
      simp only [Nat.cast_zero, zero_mul] at hb
      have : h - 1 = 0 := abs_eq_zero.mp (le_antisymm hb (abs_nonneg _))
      have : h = 1 := by linarith
      simp [this]
  | succ k ih =>
      intro h hb
      rw [Function.iterate_succ_apply]
      apply ih
      unfold tickHeat
      rcases lt_trichotomy h 1 with hlt | heq | hgt
      · rw [if_neg (by linarith), if_pos hlt]
        rcases le_or_lt 1 (h + 5 / 100) with hc | hc
        · rw [min_eq_left hc]
          simp
        · rw [min_eq_right hc.le]
          rw [abs_of_nonpos (by linarith)]
          rw [abs_of_nonpos (by linarith)] at hb
          push_cast at hb ⊢
          linarith
      · subst heq
        simp
      · rw [if_pos hgt]
        rcases le_or_lt (h - 5 / 100) 1 with hc | hc
        · rw [max_eq_left hc]
          simp
        · rw [max_eq_right hc.le]
          rw [abs_of_nonneg (by linarith)]
          rw [abs_of_nonneg (by linarith)] at hb
          push_cast at hb ⊢
          linarith

/-- Every heat value reaches exactly 1 after finitely many ticks. -/
lemma tickHeat_converges (h : ℚ) : ∃ n : ℕ, tickHeat^[n] h = 1 := by
  refine ⟨⌈|h - 1| * 20⌉₊, tickHeat_iterate_eq_one _ h ?_⟩
  have hceil : (|h - 1| * 20 : ℚ) ≤ (⌈|h - 1| * 20⌉₊ : ℚ) := Nat.le_ceil _
  linarith

/-! ## C4 and C5: MarketTick behaviour -/

/-- A market with one source-heat entry at 1.2, used to separate the
fixed-step decay of the code from a proportional decay. -/
def c5Market : MarketState :=
  { sourceHeat := [("planet_prime", [("ore", 6 / 5)])], destHeat := [] }

/-- C4: every heat value moves toward 1.0 monotonically (|h − 1| is
non-increasing per tick), never crosses 1.0 in a single step, and reaches
exactly 1.0 after finitely many ticks; MarketTick applies this step to
every present SourceHeat and DestHeat entry. -/
theorem heat_converges_monotone (h : ℚ) (m : MarketState) (p c : String) (inner : InnerHeat) :
    |tickHeat h - 1| ≤ |h - 1| ∧
    (1 ≤ h → 1 ≤ tickHeat h) ∧
    (h ≤ 1 → tickHeat h ≤ 1) ∧
    (∃ n : ℕ, tickHeat^[n] h = 1) ∧
    (m.sourceHeat.lookup p = some inner → inner.lookup c = some h →
      heatLookup (MarketTick m).sourceHeat p c = tickHeat h) ∧
    (m.destHeat.lookup p = some inner → inner.lookup c = some h →
      heatLookup (MarketTick m).destHeat p c = tickHeat h) :=
  ⟨tickHeat_abs_le h, (tickHeat_no_cross h).1, (tickHeat_no_cross h).2, tickHeat_converges h,
   fun hp hc => heatLookup_tickMap _ _ _ _ _ hp hc,
   fun hp hc => heatLookup_tickMap _ _ _ _ _ hp hc⟩

/-- Witness for C4 at the entry 1.2 of `c5Market`. -/
theorem heat_converges_monotone_witness :
    heatLookup (MarketTick c5Market).sourceHeat "planet_prime" "ore" = tickHeat (6 / 5) :=
  (heat_converges_monotone (6 / 5) c5Market "planet_prime" "ore"
    [("ore", 6 / 5)]).2.2.2.2.1 rfl rfl

/-- Counterexample for C5: on the entry h = 1.2, MarketTick yields 1.15
(a fixed 0.05 step), while "5% of the current distance from 1.0" would
yield h − 0.05·(h − 1.0) = 1.19; the two differ. -/
theorem tick_not_proportional_cex :
    heatLookup (MarketTick c5Market).sourceHeat "planet_prime" "ore" = 23 / 20 ∧
    (6 / 5 : ℚ) - 5 / 100 * (6 / 5 - 1) = 119 / 100 ∧
    ¬ heatLookup (MarketTick c5Market).sourceHeat "planet_prime" "ore" = 119 / 100 := by
  have h1 : heatLookup (MarketTick c5Market).sourceHeat "planet_prime" "ore" = tickHeat (6 / 5) :=
    heatLookup_tickMap _ _ _ [("ore", 6 / 5)] _ rfl rfl
  have h2 : tickHeat (6 / 5 : ℚ) = 23 / 20 := by
    unfold tickHeat
    rw [if_pos (by norm_num), max_eq_right (by norm_num)]
    norm_num
  refine ⟨h1.trans h2, by norm_num, ?_⟩
  rw [h1, h2]
  norm_num

/-- C5 (amended): each tick moves every present heat entry by a fixed
absolute step of 0.05 toward 1.0 — not by 5% of its distance — clamped at
1.0 so the value cannot overshoot past 1.0. -/
theorem tick_fixed_step (m : MarketState) (p c : String) (inner : InnerHeat) (h : ℚ) :
    (m.sourceHeat.lookup p = some inner → inner.lookup c = some h →
        heatLookup (MarketTick m).sourceHeat p c = tickHeat h) ∧
    (m.destHeat.lookup p = some inner → inner.lookup c = some h →
        heatLookup (MarketTick m).destHeat p c = tickHeat h) ∧
    (1 < h → tickHeat h = max 1 (h - 5 / 100)) ∧
    (h < 1 → tickHeat h = min 1 (h + 5 / 100)) ∧
    tickHeat 1 = 1 ∧
    (1 < h → 1 ≤ tickHeat h) ∧
    (h < 1 → tickHeat h ≤ 1) := by
  refine ⟨fun hp hc => heatLookup_tickMap _ _ _ _ _ hp hc,
    fun hp hc => heatLookup_tickMap _ _ _ _ _ hp hc, ?_, ?_, by unfold tickHeat; norm_num,
    fun h1 => (tickHeat_no_cross h).1 h1.le, fun h1 => (tickHeat_no_cross h).2 h1.le⟩
  · intro h1
    unfold tickHeat
    rw [if_pos h1]
  · intro h1
    unfold tickHeat
    rw [if_neg (by linarith), if_pos h1]

/-- Witness for C5 (amended) at the entry 1.2 of `c5Market`. -/
theorem tick_fixed_step_witness :
    tickHeat (6 / 5) = max 1 ((6 / 5 : ℚ) - 5 / 100) :=
  (tick_fixed_step c5Market "planet_prime" "ore" [("ore", 6 / 5)] (6 / 5)).2.2.1 (by norm_num)

/-! ## C7: broadcast fan-out with drop-on-full -/

/-- An observer whose 256-slot queue is already full. -/
def fullClient : Client := { id := 4, send := List.replicate queueCapacity "x" }

/-- Three observers with room in their queues plus one full one. -/
def demoHub : Hub :=
  { clients := [{ id := 1, send := [] }, { id := 2, send := ["a"] },
                { id := 3, send := [] }, fullClient] }

set_option maxRecDepth 4000 in
/-- C7: one broadcast event offers the message non-blockingly to every
registered observer: an observer with queue space receives the message
appended to its queue and stays registered; an observer with a full queue
is dropped within that same broadcast step; in the demo hub, the 3
observers with room all receive the message and the 4th, full one is
dropped. -/
theorem hub_broadcast_policy (hub : Hub) (msg : String) (c : Client)
    (hnd : (hub.clients.map Client.id).Nodup) (hc : c ∈ hub.clients) :
    (c.send.length < queueCapacity →
        { c with send := c.send ++ [msg] } ∈ (hubBroadcast hub msg).clients) ∧
    (queueCapacity ≤ c.send.length →
        ∀ c' ∈ (hubBroadcast hub msg).clients, c'.id ≠ c.id) ∧
    (hubBroadcast demoHub "m").clients =
      [{ id := 1, send := ["m"] }, { id := 2, send := ["a", "m"] },
       { id := 3, send := ["m"] }] := by
  refine ⟨?_, ?_, by decide⟩
  · intro hlen
    unfold hubBroadcast
    exact List.mem_filterMap.mpr ⟨c, hc, by simp [offerMessage, hlen]⟩
  · intro hlen c' hc'
    obtain ⟨a, ha, hoff⟩ := List.mem_filterMap.mp hc'
    unfold offerMessage at hoff
    by_cases hl : a.send.length < queueCapacity
    · rw [if_pos hl] at hoff
      obtain rfl := Option.some.inj hoff
      intro hid
      have haceq : a = c :=
        List.inj_on_of_nodup_map hnd ha hc (by simpa using hid)
      subst haceq
      omega
    · rw [if_neg hl] at hoff
      cases hoff

set_option maxRecDepth 4000 in
/-- Witness for C7: the first demo observer receives the broadcast. -/
theorem hub_broadcast_policy_witness :
    ({ id := 1, send := ["m"] } : Client) ∈ (hubBroadcast demoHub "m").clients :=
  (hub_broadcast_policy demoHub "m" { id := 1, send := [] }
    (by decide) (by decide)).1 (by decide)

/-! ## C1: acceptance capacity -/

/-- A successful `extractContract` decomposes the list: the extracted
contract has the requested id, sits at the first matching position, and
the remainder is the list with that occurrence removed. -/
lemma extractContract_eq {l : List Contract} {cid : String} {t : Contract}
    {rest : List Contract} (h : extractContract l cid = some (t, rest)) :
    t.id = cid ∧ ∃ l1 l2, l = l1 ++ t :: l2 ∧ rest = l1 ++ l2 ∧ ∀ x ∈ l1, x.id ≠ cid := by
  induction l generalizing rest with
  | nil => cases h
  | cons c tl ih =>
      unfold extractContract at h
      by_cases hc : c.id = cid
      · rw [if_pos hc] at h
        obtain ⟨rfl, rfl⟩ : c = t ∧ tl = rest := by
          have := Option.some.inj h
          exact ⟨congrArg Prod.fst this, congrArg Prod.snd this⟩
        exact ⟨hc, [], tl, rfl, rfl, by simp⟩
      · rw [if_neg hc] at h
        cases hrec : extractContract tl cid with
        | none => rw [hrec] at h; cases h
        | some p =>
            obtain ⟨t', rest'⟩ := p
            rw [hrec] at h
            simp only [Option.map_some', Option.some.injEq, Prod.mk.injEq] at h
            obtain ⟨rfl, rfl⟩ := h
            obtain ⟨hid, l1, l2, hl, hr, hnone⟩ := ih hrec
            exact ⟨hid, c :: l1, l2, by simp [hl], by simp [hr],
              by
                intro x hx
                rcases List.mem_cons.mp hx with rfl | hx'
                · exact hc
                · exact hnone x hx'⟩

/-- The extracted contract was a member of the original list. -/
lemma extractContract_mem {l : List Contract} {cid : String} {t : Contract}
    {rest : List Contract} (h : extractContract l cid = some (t, rest)) : t ∈ l := by
  obtain ⟨-, l1, l2, hl, -, -⟩ := extractContract_eq h
  rw [hl]
  exact List.mem_append.mpr (Or.inr (List.mem_cons_self _ _))

/-- Appending one contract to the cargo-load fold. -/
lemma cargoLoad_append_one (l : List Contract) (c : Contract) :
    cargoLoad (l ++ [c])
      = if c.type = "cargo" then cargoLoad l + c.quantity else cargoLoad l := by
  unfold cargoLoad
  rw [List.foldl_append]
  rfl

/-- Appending one contract to the passenger-load fold. -/
lemma paxLoad_append_one (l : List Contract) (c : Contract) :
    paxLoad (l ++ [c])
      = if c.type = "cargo" then paxLoad l else paxLoad l + c.quantity := by
  unfold paxLoad
  rw [List.foldl_append]
  rfl

/-- The capacity invariant of the spec: cargo load within CargoCapacity
and passenger load within PassengerSlots. -/
def CapacityOK (ship : Ship) : Prop :=
  cargoLoad ship.activeContracts ≤ ship.cargoCapacity ∧
  paxLoad ship.activeContracts ≤ ship.passengerSlots

/-- C1: accept-contract preserves the capacity invariant (for a board
whose contracts are cargo- or passenger-typed), and an acceptance whose
quantity would exceed the remaining capacity of its type is rejected with
a precondition failure, leaving ship and board unchanged (`.error`
mutates nothing). -/
theorem accept_contract_capacity (s : GameState) (cid : String)
    (hwt : ∀ c ∈ s.boards s.ship.locationKey, c.type = "cargo" ∨ c.type = "passenger")
    (hinv : CapacityOK s.ship) :
    (∀ s', HandleAcceptContract s cid = .ok s' → CapacityOK s'.ship) ∧
    (∀ target rest,
      extractContract (s.boards s.ship.locationKey) cid = some (target, rest) →
      (target.type = "cargo" ∧
          cargoLoad s.ship.activeContracts + target.quantity > s.ship.cargoCapacity) ∨
        (target.type = "passenger" ∧
          paxLoad s.ship.activeContracts + target.quantity > s.ship.passengerSlots) →
      HandleAcceptContract s cid = .error .preconditionFailed) := by
  constructor
  · intro s' hok
    simp only [HandleAcceptContract] at hok
    cases hext : extractContract (s.boards s.ship.locationKey) cid with
    | none => rw [hext] at hok; cases hok
    | some p =>
        obtain ⟨target, newBoard⟩ := p
        rw [hext] at hok
        dsimp only at hok
        by_cases h1 : target.type = "cargo" ∧
            cargoLoad s.ship.activeContracts + target.quantity > s.ship.cargoCapacity
        · rw [if_pos h1] at hok; cases hok
        · rw [if_neg h1] at hok
          by_cases h2 : target.type = "passenger" ∧
              paxLoad s.ship.activeContracts + target.quantity > s.ship.passengerSlots
          · rw [if_pos h2] at hok; cases hok
          · rw [if_neg h2] at hok
            cases hok
            refine ⟨?_, ?_⟩
            · show cargoLoad (s.ship.activeContracts ++ [target]) ≤ s.ship.cargoCapacity
              rw [cargoLoad_append_one]
              rcases hwt target (extractContract_mem hext) with hty | hty
              · rw [if_pos hty]
                have hno : ¬ cargoLoad s.ship.activeContracts + target.quantity >
                    s.ship.cargoCapacity := fun hgt => h1 ⟨hty, hgt⟩
                omega
              · rw [if_neg (fun hcp => by rw [hty] at hcp; simp at hcp)]
                exact hinv.1
            · show paxLoad (s.ship.activeContracts ++ [target]) ≤ s.ship.passengerSlots
              rw [paxLoad_append_one]
              rcases hwt target (extractContract_mem hext) with hty | hty
              · rw [if_pos hty]
                exact hinv.2
              · rw [if_neg (fun hcp => by rw [hty] at hcp; simp at hcp)]
                have hno : ¬ paxLoad s.ship.activeContracts + target.quantity >
                    s.ship.passengerSlots := fun hgt => h2 ⟨hty, hgt⟩
                omega
  · intro target rest hext hover
    simp only [HandleAcceptContract]
    rw [hext]
    dsimp only
    rcases hover with ⟨hty, hover⟩ | ⟨hty, hover⟩
    · rw [if_pos ⟨hty, hover⟩]
    · rw [if_neg (fun hcp => by rw [hty] at hcp; simp at hcp), if_pos ⟨hty, hover⟩]

/-- An oversized cargo contract offered at the hub. -/
def bigOreContract : Contract :=
  { id := "CRG-9-9", type := "cargo", itemName := "Ore", itemKey := "ore",
    quantity := 20, massPerUnit := 1, originKey := "planet_prime",
    destinationKey := "planet_b", payout := 100 }

/-- A state whose ship has cargo capacity 10 while the local board offers
a 20-unit cargo contract. -/
def c1State : GameState :=
  { demoState with
    ship := { demoShip with cargoCapacity := 10 },
    boards := fun k => if k = "planet_prime" then [bigOreContract] else [] }

/-- Witness for C1: accepting the 20-unit contract with 10 free cargo
units fails with a precondition error. -/
theorem accept_contract_capacity_witness :
    HandleAcceptContract c1State "CRG-9-9" = .error .preconditionFailed :=
  (accept_contract_capacity c1State "CRG-9-9" (by decide) ⟨by decide, by decide⟩).2
    bigOreContract [] rfl (Or.inl ⟨rfl, by decide⟩)

/-! ## C2: travel -/

/-- The delivery fold of HandleTravel, written as filters: non-matching
contracts survive in order, matched payouts are summed, and each matched
contract is recorded as a delivery in order. -/
lemma deliverStep_foldl (newLoc : String) (l : List Contract)
    (acc : List Contract) (p : Int) (m : MarketState) :
    l.foldl (deliverStep newLoc) (acc, p, m) =
      (acc ++ l.filter (fun c => ¬ c.destinationKey = newLoc),
       p + ((l.filter (fun c => c.destinationKey = newLoc)).map Contract.payout).sum,
       (l.filter (fun c => c.destinationKey = newLoc)).foldl
         (fun mm c => RecordDelivery mm c.destinationKey c.itemKey c.quantity) m) := by
  induction l generalizing acc p m with
  | nil => simp
  | cons c t ih =>
      simp only [List.foldl_cons, deliverStep]
      by_cases hc : c.destinationKey = newLoc
      · rw [if_pos hc, ih]
        simp [List.filter_cons, hc, add_assoc]
      · rw [if_neg hc, ih]
        simp [List.filter_cons, hc]

/-- C2: travelling to a known destination from a known current location
with insufficient fuel is rejected with a precondition failure and changes
nothing; with sufficient fuel it debits exactly `distance × burnRate`,
moves the ship, credits the payout of every active contract whose
destination is the new location, removes exactly those contracts, records
each delivery, and leaves the boards untouched. -/
theorem travel_spec (s : GameState) (destKey : String) (cur dest : Planet)
    (hcur : GetPlanet s.currentUniverse s.ship.locationKey = some cur)
    (hdest : GetPlanet s.currentUniverse destKey = some dest) :
    (s.ship.fuel < CalculateDistance cur.coordinates dest.coordinates *
        CalculateCurrentBurn s.currentUniverse s.ship →
      HandleTravel s destKey = some (.error .preconditionFailed)) ∧
    (CalculateDistance cur.coordinates dest.coordinates *
        CalculateCurrentBurn s.currentUniverse s.ship ≤ s.ship.fuel →
      HandleTravel s destKey = some (.ok { s with
        ship := { s.ship with
          fuel := s.ship.fuel - CalculateDistance cur.coordinates dest.coordinates *
            CalculateCurrentBurn s.currentUniverse s.ship,
          locationKey := dest.key,
          activeContracts :=
            s.ship.activeContracts.filter (fun c => ¬ c.destinationKey = dest.key),
          credits := s.ship.credits +
            ((s.ship.activeContracts.filter
              (fun c => c.destinationKey = dest.key)).map Contract.payout).sum },
        market := (s.ship.activeContracts.filter
            (fun c => c.destinationKey = dest.key)).foldl
          (fun mm c => RecordDelivery mm c.destinationKey c.itemKey c.quantity)
          s.market })) := by
  constructor
  · intro hf
    simp only [HandleTravel]
    rw [hdest, hcur]
    dsimp only
    rw [if_pos hf]
  · intro hf
    simp only [HandleTravel]
    rw [hdest, hcur]
    dsimp only
    rw [if_neg (not_lt.mpr hf), deliverStep_foldl]
    simp

/-- The reference ship with 600 fuel, ready for the spec's 500-cost trip. -/
def travelState : GameState := { demoState with ship := { demoShip with fuel := 600 } }

/-- The 3-4-5 distance of the demo planets (`math.Sqrt` does not reduce in
the kernel, so this is proved via `Nat.sqrt_eq`). -/
lemma calcDist_demo : CalculateDistance demoPlanetA.coordinates demoPlanetB.coordinates = 5 := by
  show CalculateDistance [0, 0] [3, 4] = 5
  have h25 : ((3 - 0 : Int) ^ 2 + (4 - 0 : Int) ^ 2).toNat = 25 := by
    norm_num
    rfl
  have hs : Nat.sqrt 25 = 5 := by
    have h : (25 : ℕ) = 5 * 5 := by norm_num
    rw [h, Nat.sqrt_eq]
  simp only [CalculateDistance, roundSqrt, h25, hs]
  norm_num

/-- Witness for C2 at the spec scenario: distance 5, burn 100, fuel 600;
travel succeeds and leaves 100 fuel at the destination. -/
theorem travel_spec_witness :
    ∃ s', HandleTravel travelState "planet_b" = some (.ok s') ∧
      s'.ship.fuel = 100 ∧ s'.ship.locationKey = "planet_b" := by
  have hb : CalculateCurrentBurn travelState.currentUniverse travelState.ship = 100 := by decide
  have hf : CalculateDistance demoPlanetA.coordinates demoPlanetB.coordinates *
      CalculateCurrentBurn travelState.currentUniverse travelState.ship ≤
      travelState.ship.fuel := by
    rw [calcDist_demo, hb]; decide
  have h := (travel_spec travelState "planet_b" demoPlanetA demoPlanetB rfl rfl).2 hf
  refine ⟨_, h, ?_, rfl⟩
  show travelState.ship.fuel - CalculateDistance demoPlanetA.coordinates demoPlanetB.coordinates *
      CalculateCurrentBurn travelState.currentUniverse travelState.ship = 100
  rw [calcDist_demo, hb]
  decide

/-! ## C3: replenishment lemmas -/

/-- Injectivity of `some` on pairs, used to take generator results apart. -/
lemma some_pair_inj {α β : Type} {a c : α} {b d : β}
    (h : some (a, b) = some (c, d)) : a = c ∧ b = d := by
  have h2 := Option.some.inj h
  exact ⟨congrArg Prod.fst h2, congrArg Prod.snd h2⟩

/-- A generated passenger contract has type "passenger". -/
lemma genPaxUnit_type {u : Universe} {origin : Planet} {r : Rand} {k : Nat}
    {c : Contract} {k' : Nat} (h : genPaxUnit u origin r k = some (c, k')) :
    c.type = "passenger" := by
  unfold genPaxUnit at h
  cases hpd : pickDest u.planets origin.key r k resampleBound with
  | none => rw [hpd] at h; cases h
  | some p =>
      rw [hpd] at h
      obtain ⟨dest, k1⟩ := p
      dsimp only at h
      obtain ⟨hc, -⟩ := some_pair_inj h
      subst hc
      rfl

/-- generatePassengerJobs produces exactly `n` passenger-typed jobs. -/
lemma genPaxJobs_spec (u : Universe) (origin : Planet) (r : Rand) :
    ∀ n k {jobs : List Contract} {k' : Nat},
    generatePassengerJobs u origin r k n = some (jobs, k') →
    jobs.length = n ∧ ∀ c ∈ jobs, c.type = "passenger" := by
  intro n
  induction n with
  | zero =>
      intro k jobs k' h
      unfold generatePassengerJobs at h
      obtain ⟨hj, -⟩ := some_pair_inj h
      subst hj
      exact ⟨rfl, by simp⟩
  | succ n ih =>
      intro k jobs k' h
      unfold generatePassengerJobs at h
      cases hu : genPaxUnit u origin r k with
      | none => rw [hu] at h; cases h
      | some p =>
          rw [hu] at h
          obtain ⟨job, k1⟩ := p
          dsimp only at h
          cases hrec : generatePassengerJobs u origin r k1 n with
          | none => rw [hrec] at h; cases h
          | some q =>
              rw [hrec] at h
              obtain ⟨jobs', k2⟩ := q
              dsimp only at h
              obtain ⟨hj, -⟩ := some_pair_inj h
              subst hj
              obtain ⟨hlen, hty⟩ := ih k1 hrec
              refine ⟨by simp [hlen], ?_⟩
              intro c hc
              rcases List.mem_cons.mp hc with rfl | hc2
              · exact genPaxUnit_type hu
              · exact hty c hc2

/-- One cargo-generation unit: any produced contract is cargo-typed, and
when every source-heat value at the origin is at most 1.5 (and the float
oracle is a genuine `[0,1)` stream) the scarcity skip cannot fire. -/
lemma genCargoUnit_spec {u : Universe} {m : MarketState} {origin : Planet} {r : Rand}
    {k : Nat} {res : Option Contract × Nat} (h : genCargoUnit u m origin r k = some res) :
    (∀ c, res.1 = some c → c.type = "cargo") ∧
    ((∀ ck, heatLookup m.sourceHeat origin.key ck ≤ 3 / 2) →
      (∀ j, 0 ≤ r.floats j ∧ r.floats j < 1) → res.1.isSome) := by
  unfold genCargoUnit at h
  cases hpc : pickCommodity u origin r k with
  | none => rw [hpc] at h; cases h
  | some p =>
      rw [hpc] at h
      obtain ⟨comm, k1⟩ := p
      dsimp only at h
      by_cases hskip : heatLookup m.sourceHeat origin.key comm.key > 1 ∧
          r.floats k1 * heatLookup m.sourceHeat origin.key comm.key > 3 / 2
      · rw [if_pos hskip] at h
        obtain rfl := Option.some.inj h
        refine ⟨?_, ?_⟩
        · intro c hc
          cases hc
        intro hheat hfl
        exfalso
        have hle : heatLookup m.sourceHeat origin.key comm.key ≤ 3 / 2 := hheat comm.key
        have h0 : (0:ℚ) < heatLookup m.sourceHeat origin.key comm.key :=
          lt_trans one_pos hskip.1
        have hlt : r.floats k1 * heatLookup m.sourceHeat origin.key comm.key <
            heatLookup m.sourceHeat origin.key comm.key := by
          nlinarith [(hfl k1).1, (hfl k1).2]
        linarith [hskip.2]
      · rw [if_neg hskip] at h
        cases hpd : pickDest u.planets origin.key r
            (if heatLookup m.sourceHeat origin.key comm.key > 1 then k1 + 1 else k1)
            resampleBound with
        | none => rw [hpd] at h; cases h
        | some q =>
            rw [hpd] at h
            obtain ⟨dest, k3⟩ := q
            dsimp only at h
            obtain rfl := Option.some.inj h
            exact ⟨fun c hc => by rw [← Option.some.inj hc], fun _ _ => rfl⟩

/-- generateCargoJobs: all produced jobs are cargo-typed, at most `n` are
produced, and exactly `n` when no scarcity skip can fire. -/
lemma genCargoJobs_spec (u : Universe) (m : MarketState) (origin : Planet) (r : Rand) :
    ∀ n k {jobs : List Contract} {k' : Nat},
    generateCargoJobs u m origin r k n = some (jobs, k') →
    (∀ c ∈ jobs, c.type = "cargo") ∧ jobs.length ≤ n ∧
    ((∀ ck, heatLookup m.sourceHeat origin.key ck ≤ 3 / 2) →
      (∀ j, 0 ≤ r.floats j ∧ r.floats j < 1) → jobs.length = n) := by
  intro n
  induction n with
  | zero =>
      intro k jobs k' h
      unfold generateCargoJobs at h
      obtain ⟨hj, -⟩ := some_pair_inj h
      subst hj
      exact ⟨by simp, by simp, fun _ _ => rfl⟩
  | succ n ih =>
      intro k jobs k' h
      unfold generateCargoJobs at h
      cases hu : genCargoUnit u m origin r k with
      | none => rw [hu] at h; cases h
      | some p =>
          rw [hu] at h
          obtain ⟨job?, k1⟩ := p
          dsimp only at h
          cases hrec : generateCargoJobs u m origin r k1 n with
          | none => rw [hrec] at h; cases h
          | some q =>
              rw [hrec] at h
              obtain ⟨jobs', k2⟩ := q
              dsimp only at h
              obtain ⟨hj, -⟩ := some_pair_inj h
              subst hj
              obtain ⟨hty2, hlen2, hfull2⟩ := ih k1 hrec
              obtain ⟨hty1, hfull1⟩ := genCargoUnit_spec hu
              refine ⟨?_, ?_, ?_⟩
              · intro c hc
                rcases List.mem_append.mp hc with hc1 | hc2
                · cases hjob : job? with
                  | none => rw [hjob] at hc1; cases hc1
                  | some j =>
                      rw [hjob] at hc1
                      obtain rfl : c = j := by simpa using hc1
                      exact hty1 c (by rw [hjob])
                · exact hty2 c hc2
              · have hone : job?.toList.length ≤ 1 := by cases job? <;> simp
                simp only [List.length_append]
                omega
              · intro hheat hfl
                have hs : job?.isSome := hfull1 hheat hfl
                have hone : job?.toList.length = 1 := by
                  cases job? with
                  | none => cases hs
                  | some j => simp
                simp only [List.length_append, hone, hfull2 hheat hfl]
                omega

/-- Counting a type over an append. -/
lemma countType_append (b1 b2 : List Contract) (t : String) :
    countType (b1 ++ b2) t = countType b1 t + countType b2 t :=
  List.countP_append _ _ _

/-- Every contract of a uniformly-typed list counts. -/
lemma countType_all {jobs : List Contract} {ty : String}
    (h : ∀ c ∈ jobs, c.type = ty) : countType jobs ty = jobs.length := by
  unfold countType
  apply List.countP_eq_length.mpr
  intro c hc
  simp [h c hc]

/-- A uniformly-typed list contributes nothing to another type's count. -/
lemma countType_other {jobs : List Contract} {ty ty' : String} (hne : ty ≠ ty')
    (h : ∀ c ∈ jobs, c.type = ty) : countType jobs ty' = 0 := by
  unfold countType
  apply List.countP_eq_zero.mpr
  intro c hc
  simp [h c hc, hne]

/-- A successful `rand.Intn` draw lies in `[0, n)`. -/
lemma randIntn_bounds {r : Rand} {k : Nat} {n d : Int} {k' : Nat}
    (h : randIntn r k n = some (d, k')) : 0 ≤ d ∧ d < n := by
  unfold randIntn at h
  by_cases hn : n ≤ 0
  · rw [if_pos hn] at h; cases h
  · rw [if_neg hn] at h
    obtain ⟨hd, -⟩ := some_pair_inj h
    subst hd
    constructor
    · exact Int.natCast_nonneg _
    · have hlt : r.ints k % n.toNat < n.toNat := Nat.mod_lt _ (by omega)
      calc ((r.ints k % n.toNat : Nat) : Int) < (n.toNat : Int) := by exact_mod_cast hlt
        _ = n := Int.toNat_of_nonneg (by omega)

/-- The spec's per-type replenishment outcome: the count was already at or
above the minimum and is unchanged, or it now lies in `[lo, hi]`. -/
def ReplenishedOK (oldCount newCount lo hi : Int) : Prop :=
  (lo ≤ oldCount ∧ newCount = oldCount) ∨ (lo ≤ newCount ∧ newCount ≤ hi)

/-- The cargo phase: other boards untouched, the passenger count at the
origin unchanged, and the cargo count satisfies the replenishment outcome
whenever no scarcity skip can fire. -/
lemma replenishCargo_spec {u : Universe} {m : MarketState} {r : Rand}
    {boards : String → List Contract} {origin : Planet} {k : Nat} {upd : List String}
    {out : (String → List Contract) × Nat × List String}
    (hout : replenishCargo u m r boards origin k upd = some out)
    (hfl : ∀ j, 0 ≤ r.floats j ∧ r.floats j < 1) :
    (∀ x, x ≠ origin.key → out.1 x = boards x) ∧
    countType (out.1 origin.key) "passenger" = countType (boards origin.key) "passenger" ∧
    ((∀ ck, heatLookup m.sourceHeat origin.key ck ≤ 3 / 2) →
      ReplenishedOK (countType (boards origin.key) "cargo")
        (countType (out.1 origin.key) "cargo")
        (cargoTargets origin).1 (cargoTargets origin).2) := by
  obtain ⟨outB, outRest⟩ := out
  unfold replenishCargo at hout
  dsimp only at hout
  by_cases hlow : (countType (boards origin.key) "cargo" : Int) < (cargoTargets origin).1
  · rw [if_pos hlow] at hout
    cases hrand : randIntn r k ((cargoTargets origin).2 - (cargoTargets origin).1 + 1) with
    | none => rw [hrand] at hout; cases hout
    | some p =>
        obtain ⟨d, kd⟩ := p
        obtain ⟨hd0, hdlt⟩ := randIntn_bounds hrand
        rw [hrand] at hout
        dsimp only at hout
        have hneed : d + (cargoTargets origin).1 -
            (countType (boards origin.key) "cargo" : Int) > 0 := by omega
        rw [if_pos hneed] at hout
        cases hgen : generateCargoJobs u m origin r kd
            (d + (cargoTargets origin).1 -
              (countType (boards origin.key) "cargo" : Int)).toNat with
        | none => rw [hgen] at hout; cases hout
        | some q =>
            obtain ⟨jobs, k2⟩ := q
            rw [hgen] at hout
            dsimp only at hout
            obtain ⟨hob, -⟩ := some_pair_inj hout
            subst hob
            obtain ⟨hty, hlen, hfull⟩ := genCargoJobs_spec u m origin r _ kd hgen
            refine ⟨?_, ?_, ?_⟩
            · intro x hx
              unfold updateBoard
              dsimp only
              rw [if_neg hx]
            · unfold updateBoard
              dsimp only
              rw [if_pos rfl, countType_append, countType_other (by decide) hty]
              omega
            · intro hheat
              unfold updateBoard
              dsimp only
              rw [if_pos rfl, countType_append, countType_all hty, hfull hheat hfl]
              right
              constructor <;> omega
  · rw [if_neg hlow] at hout
    obtain ⟨hob, -⟩ := some_pair_inj hout
    subst hob
    exact ⟨fun _ _ => rfl, rfl, fun _ => Or.inl ⟨by omega, rfl⟩⟩

/-- The passenger phase: other boards untouched, the cargo count at the
origin unchanged, and the passenger count satisfies the replenishment
outcome unconditionally (no scarcity skip for passengers). -/
lemma replenishPax_spec {u : Universe} {r : Rand}
    {boards1 : String → List Contract} {origin : Planet} {k1 : Nat} {upd1 : List String}
    {out : (String → List Contract) × Nat × List String}
    (hout : replenishPax u r boards1 origin k1 upd1 = some out) :
    (∀ x, x ≠ origin.key → out.1 x = boards1 x) ∧
    countType (out.1 origin.key) "cargo" = countType (boards1 origin.key) "cargo" ∧
    ReplenishedOK (countType (boards1 origin.key) "passenger")
      (countType (out.1 origin.key) "passenger")
      (paxTargets origin).1 (paxTargets origin).2 := by
  obtain ⟨outB, outRest⟩ := out
  unfold replenishPax at hout
  dsimp only at hout
  by_cases hlow : (countType (boards1 origin.key) "passenger" : Int) < (paxTargets origin).1
  · rw [if_pos hlow] at hout
    cases hrand : randIntn r k1 ((paxTargets origin).2 - (paxTargets origin).1 + 1) with
    | none => rw [hrand] at hout; cases hout
    | some p =>
        obtain ⟨d, kd⟩ := p
        obtain ⟨hd0, hdlt⟩ := randIntn_bounds hrand
        rw [hrand] at hout
        dsimp only at hout
        have hneed : d + (paxTargets origin).1 -
            (countType (boards1 origin.key) "passenger" : Int) > 0 := by omega
        rw [if_pos hneed] at hout
        cases hgen : generatePassengerJobs u origin r kd
            (d + (paxTargets origin).1 -
              (countType (boards1 origin.key) "passenger" : Int)).toNat with
        | none => rw [hgen] at hout; cases hout
        | some q =>
            obtain ⟨jobs, k2⟩ := q
            rw [hgen] at hout
            dsimp only at hout
            obtain ⟨hob, -⟩ := some_pair_inj hout
            subst hob
            obtain ⟨hlen, hty⟩ := genPaxJobs_spec u origin r _ kd hgen
            refine ⟨?_, ?_, ?_⟩
            · intro x hx
              unfold updateBoard
              dsimp only
              rw [if_neg hx]
            · unfold updateBoard
              dsimp only
              rw [if_pos rfl, countType_append, countType_other (by decide) hty]
              omega
            · unfold updateBoard
              dsimp only
              rw [if_pos rfl, countType_append, countType_all hty, hlen]
              right
              constructor <;> omega
  · rw [if_neg hlow] at hout
    obtain ⟨hob, -⟩ := some_pair_inj hout
    subst hob
    exact ⟨fun _ _ => rfl, rfl, Or.inl ⟨by omega, rfl⟩⟩

/-- Per-planet replenishment: other boards are untouched; the passenger
count satisfies the replenishment outcome unconditionally, the cargo count
whenever no scarcity skip can fire at this planet. -/
lemma replenishPlanet_spec {u : Universe} {m : MarketState} {r : Rand}
    {boards : String → List Contract} {origin : Planet} {k : Nat} {upd : List String}
    {out : (String → List Contract) × Nat × List String}
    (hout : replenishPlanet u m r boards origin k upd = some out)
    (hfl : ∀ j, 0 ≤ r.floats j ∧ r.floats j < 1) :
    (∀ x, x ≠ origin.key → out.1 x = boards x) ∧
    ReplenishedOK (countType (boards origin.key) "passenger")
      (countType (out.1 origin.key) "passenger")
      (paxTargets origin).1 (paxTargets origin).2 ∧
    ((∀ ck, heatLookup m.sourceHeat origin.key ck ≤ 3 / 2) →
      ReplenishedOK (countType (boards origin.key) "cargo")
        (countType (out.1 origin.key) "cargo")
        (cargoTargets origin).1 (cargoTargets origin).2) := by
  unfold replenishPlanet at hout
  cases hc : replenishCargo u m r boards origin k upd with
  | none => rw [hc] at hout; cases hout
  | some mid =>
      rw [hc] at hout
      dsimp only at hout
      obtain ⟨boards1, k1, upd1⟩ := mid
      obtain ⟨hu1, hpaxkeep, hcargo1⟩ := replenishCargo_spec hc hfl
      obtain ⟨hu2, hcargokeep, hpax2⟩ := replenishPax_spec hout
      refine ⟨?_, ?_, ?_⟩
      · intro x hx
        rw [hu2 x hx, hu1 x hx]
      · rw [← hpaxkeep]
        exact hpax2
      · intro hheat
        rw [hcargokeep]
        exact hcargo1 hheat

/-- The planet loop leaves boards whose keys it never visits untouched. -/
lemma replenishLoop_untouched (u : Universe) (m : MarketState) (r : Rand) :
    ∀ (ps : List Planet) (boards : String → List Contract) (k : Nat) (upd : List String)
      (out : (String → List Contract) × Nat × List String),
    replenishLoop u m r ps boards k upd = some out →
    (∀ j, 0 ≤ r.floats j ∧ r.floats j < 1) →
    ∀ x, x ∉ ps.map Planet.key → out.1 x = boards x := by
  intro ps
  induction ps with
  | nil =>
      intro boards k upd out h hfl x hx
      obtain ⟨outB, outRest⟩ := out
      obtain ⟨hb, -⟩ := some_pair_inj h
      rw [← hb]
  | cons q rest ih =>
      intro boards k upd out h hfl x hx
      unfold replenishLoop at h
      cases hq : replenishPlanet u m r boards q k upd with
      | none => rw [hq] at h; cases h
      | some mid =>
          rw [hq] at h
          dsimp only at h
          obtain ⟨midB, midK, midU⟩ := mid
          have hx1 : x ≠ q.key := fun he => hx (by rw [he]; exact List.mem_cons_self _ _)
          have hx2 : x ∉ rest.map Planet.key := fun he => hx (List.mem_cons_of_mem _ he)
          rw [ih midB midK midU out h hfl x hx2]
          exact (replenishPlanet_spec hq hfl).1 x hx1

/-- The planet loop satisfies the per-planet replenishment outcome at
every planet of a duplicate-free catalog. -/
lemma replenishLoop_spec (u : Universe) (m : MarketState) (r : Rand) :
    ∀ (ps : List Planet) (boards : String → List Contract) (k : Nat) (upd : List String)
      (out : (String → List Contract) × Nat × List String),
    replenishLoop u m r ps boards k upd = some out →
    (ps.map Planet.key).Nodup →
    (∀ j, 0 ≤ r.floats j ∧ r.floats j < 1) →
    ∀ p ∈ ps,
      ReplenishedOK (countType (boards p.key) "passenger")
        (countType (out.1 p.key) "passenger") (paxTargets p).1 (paxTargets p).2 ∧
      ((∀ ck, heatLookup m.sourceHeat p.key ck ≤ 3 / 2) →
        ReplenishedOK (countType (boards p.key) "cargo")
          (countType (out.1 p.key) "cargo") (cargoTargets p).1 (cargoTargets p).2) := by
  intro ps
  induction ps with
  | nil =>
      intro boards k upd out h hnd hfl p hp
      cases hp
  | cons q rest ih =>
      intro boards k upd out h hnd hfl p hp
      unfold replenishLoop at h
      cases hq : replenishPlanet u m r boards q k upd with
      | none => rw [hq] at h; cases h
      | some mid =>
          rw [hq] at h
          dsimp only at h
          obtain ⟨midB, midK, midU⟩ := mid
          have hnd2 : (rest.map Planet.key).Nodup := (List.nodup_cons.mp hnd).2
          have hqk : q.key ∉ rest.map Planet.key := (List.nodup_cons.mp hnd).1
          rcases List.mem_cons.mp hp with rfl | hp2
          · obtain ⟨hu, hpax, hcargo⟩ := replenishPlanet_spec hq hfl
            have hout_eq : out.1 p.key = midB p.key :=
              replenishLoop_untouched u m r rest midB midK midU out h hfl p.key hqk
            rw [hout_eq]
            exact ⟨hpax, hcargo⟩
          · have hne : p.key ≠ q.key := by
              intro he
              exact hqk (he ▸ List.mem_map_of_mem Planet.key hp2)
            have hmid : midB p.key = boards p.key :=
              (replenishPlanet_spec hq hfl).1 p.key hne
            have hres := ih midB midK midU out h hnd2 hfl p hp2
            rw [hmid] at hres
            exact hres

/-- C3 (amended): after ReplenishMarket, for every location the passenger
count is either unchanged (when it was already at or above the minimum) or
lies in [minimum, maximum]; the cargo count satisfies the same outcome
provided the scarcity skip cannot fire at that location — guaranteed when
every post-tick source-heat value there is at most 1.5; with higher heat
the generator may skip units and the cargo count may stay below the
minimum. -/
theorem replenish_counts (s : GameState) (r : Rand) (k : Nat)
    (out : GameState × List String × Nat)
    (hout : ReplenishMarket s r k = some out)
    (hnd : (s.currentUniverse.planets.map Planet.key).Nodup)
    (hfl : ∀ j, 0 ≤ r.floats j ∧ r.floats j < 1) :
    ∀ p ∈ s.currentUniverse.planets,
      ReplenishedOK (countType (s.boards p.key) "passenger")
        (countType (out.1.boards p.key) "passenger")
        (paxTargets p).1 (paxTargets p).2 ∧
      ((∀ ck, heatLookup (MarketTick s.market).sourceHeat p.key ck ≤ 3 / 2) →
        ReplenishedOK (countType (s.boards p.key) "cargo")
          (countType (out.1.boards p.key) "cargo")
          (cargoTargets p).1 (cargoTargets p).2) := by
  obtain ⟨outS, outRest⟩ := out
  unfold ReplenishMarket at hout
  dsimp only at hout
  cases hl : replenishLoop s.currentUniverse (MarketTick s.market) r
      s.currentUniverse.planets s.boards k [] with
  | none => rw [hl] at hout; cases hout
  | some lout =>
      rw [hl] at hout
      dsimp only at hout
      obtain ⟨loutB, loutK, loutU⟩ := lout
      obtain ⟨hs, -⟩ := some_pair_inj hout
      intro p hp
      have hres := replenishLoop_spec s.currentUniverse (MarketTick s.market) r
        s.currentUniverse.planets s.boards k [] (loutB, loutK, loutU) hl hnd hfl p hp
      rw [← hs]
      exact hres

/-- The all-zero oracle streams. -/
def demoRand : Rand := { ints := fun _ => 0, floats := fun _ => 0, times := fun _ => 0 }

/-- Witness for C3 (amended) on the demo state (board targets with
minimum 0, so replenishment changes nothing). -/
theorem replenish_counts_witness :
    ReplenishedOK (countType (demoState.boards demoPlanetA.key) "passenger")
      (countType
        (({ demoState with market := MarketTick demoState.market } : GameState).boards
          demoPlanetA.key) "passenger")
      (paxTargets demoPlanetA).1 (paxTargets demoPlanetA).2 :=
  (replenish_counts demoState demoRand 0
    ({ demoState with market := MarketTick demoState.market }, [], 0) rfl
    (by decide) (fun j => ⟨le_refl 0, by show (0:ℚ) < 1; norm_num⟩) demoPlanetA
    (List.mem_cons_self _ _)).1

/-! ## C3 counterexample: scarcity skips leave a board below its minimum -/

/-- A planet requiring exactly 2 cargo contracts, producing "ore". -/
def c3PlanetA : Planet :=
  { key := "planet_a", name := "Alpha", coordinates := [0, 0], production := ["ore"],
    demand := [], minCargo := 2, maxCargo := 2, minPassengers := 0, maxPassengers := 5 }

/-- A one-planet universe for the counterexample. -/
def c3Universe : Universe :=
  { balanceConfig := demoBalance, commodities := [demoOre], planets := [c3PlanetA],
    shipModules := [], passengerConfig := { baseTicketPrice := 50, massPerPassenger := 80 } }

/-- Source heat 2.0 on (planet_a, ore): 1.95 after the tick, high enough
for the scarcity skip to fire. -/
def c3Market : MarketState :=
  { sourceHeat := [("planet_a", [("ore", 2)])], destHeat := [] }

/-- Empty boards, hot market. -/
def c3State : GameState :=
  { currentUniverse := c3Universe, ship := demoShip, boards := fun _ => [],
    market := c3Market }

/-- Oracle streams that make both generation units draw 0.9 on the
scarcity check (cursor positions 3 and 6) and 0 everywhere else. -/
def c3Rand : Rand :=
  { ints := fun _ => 0,
    floats := fun k => if k = 3 ∨ k = 6 then 9 / 10 else 0,
    times := fun _ => 0 }

/-- The market tick on the counterexample state: 2.0 decays to 1.95. -/
lemma c3_tick : MarketTick c3State.market =
    { sourceHeat := [("planet_a", [("ore", 39 / 20)])], destHeat := [] } := by
  show MarketTick c3Market = _
  unfold MarketTick tickMap c3Market
  simp only [List.map_cons, List.map_nil]
  have h2 : tickHeat 2 = 39 / 20 := by
    unfold tickHeat
    rw [if_pos (by norm_num), max_eq_right (by norm_num)]
    norm_num
  rw [h2]

/-- Commodity choice of a counterexample unit: the 0.8-coin shows 0, the
production pick resolves to the ore commodity. -/
lemma c3_pick (k : Nat) (hk : c3Rand.floats k = 0) :
    pickCommodity c3Universe c3PlanetA c3Rand k = some (demoOre, k + 2) := by
  unfold pickCommodity
  rw [if_neg (by decide), if_pos (by rw [hk]; norm_num)]
  rfl

/-- A counterexample generation unit at cursor `k`: post-tick heat 1.95
exceeds 1, the 0.9 draw satisfies 0.9 × 1.95 > 1.5, so the unit skips. -/
lemma c3_unit_skip (k : Nat) (hk : c3Rand.floats k = 0)
    (hk2 : c3Rand.floats (k + 2) = 9 / 10) :
    genCargoUnit c3Universe (MarketTick c3State.market) c3PlanetA c3Rand k =
      some (none, k + 3) := by
  unfold genCargoUnit
  rw [c3_pick k hk]
  dsimp only
  have hheat : heatLookup (MarketTick c3State.market).sourceHeat c3PlanetA.key demoOre.key
      = 39 / 20 := by rw [c3_tick]; rfl
  rw [hheat, hk2]
  have hgt : (39 / 20 : ℚ) > 1 := by norm_num
  have hprod : (9 / 10 : ℚ) * (39 / 20) > 3 / 2 := by norm_num
  rw [if_pos (And.intro hgt hprod), if_pos hgt]

/-- Both units of the shortfall-2 generation skip: no contract is added. -/
lemma c3_jobs :
    generateCargoJobs c3Universe (MarketTick c3State.market) c3PlanetA c3Rand 1 2 =
      some ([], 7) := by
  have e2 : generateCargoJobs c3Universe (MarketTick c3State.market) c3PlanetA c3Rand 1 2 =
      (match genCargoUnit c3Universe (MarketTick c3State.market) c3PlanetA c3Rand 1 with
       | none => none
       | some (job?, k1) =>
          match generateCargoJobs c3Universe (MarketTick c3State.market) c3PlanetA c3Rand k1 1 with
          | none => none
          | some (jobs, k2) => some (job?.toList ++ jobs, k2)) := rfl
  have hu1 : genCargoUnit c3Universe (MarketTick c3State.market) c3PlanetA c3Rand 1 =
      some (none, 4) := c3_unit_skip 1 rfl rfl
  rw [e2, hu1]
  dsimp only
  have e1 : generateCargoJobs c3Universe (MarketTick c3State.market) c3PlanetA c3Rand 4 1 =
      (match genCargoUnit c3Universe (MarketTick c3State.market) c3PlanetA c3Rand 4 with
       | none => none
       | some (job?, k1) =>
          match generateCargoJobs c3Universe (MarketTick c3State.market) c3PlanetA c3Rand k1 0 with
          | none => none
          | some (jobs, k2) => some (job?.toList ++ jobs, k2)) := rfl
  have hu2 : genCargoUnit c3Universe (MarketTick c3State.market) c3PlanetA c3Rand 4 =
      some (none, 7) := c3_unit_skip 4 rfl rfl
  rw [e1, hu2]
  rfl

/-- The counterexample cargo phase: shortfall 2, both units skipped, the
board stays empty while the planet is still reported as updated. -/
lemma c3_cargo :
    replenishCargo c3Universe (MarketTick c3State.market) c3Rand c3State.boards c3PlanetA 0 [] =
      some (updateBoard c3State.boards "planet_a" [], 7, ["planet_a"]) := by
  unfold replenishCargo
  dsimp only
  rw [if_pos (by decide)]
  rw [show randIntn c3Rand 0 ((cargoTargets c3PlanetA).2 - (cargoTargets c3PlanetA).1 + 1)
      = some (0, 1) from rfl]
  dsimp only
  rw [if_pos (by decide)]
  rw [show ((0 : Int) + (cargoTargets c3PlanetA).1 -
      (countType (c3State.boards c3PlanetA.key) "cargo" : Int)).toNat = 2 from by decide]
  rw [c3_jobs]
  rfl

/-- The counterexample per-planet step: the passenger minimum is 0, so
the passenger phase changes nothing. -/
lemma c3_planet :
    replenishPlanet c3Universe (MarketTick c3State.market) c3Rand c3State.boards c3PlanetA 0 [] =
      some (updateBoard c3State.boards "planet_a" [], 7, ["planet_a"]) := by
  unfold replenishPlanet
  rw [c3_cargo]
  dsimp only
  unfold replenishPax
  rw [if_neg (by decide)]

/-- The counterexample planet loop. -/
lemma c3_loop :
    replenishLoop c3Universe (MarketTick c3State.market) c3Rand [c3PlanetA]
        c3State.boards 0 [] =
      some (updateBoard c3State.boards "planet_a" [], 7, ["planet_a"]) := by
  unfold replenishLoop
  rw [c3_planet]
  rfl

/-- The full counterexample run of ReplenishMarket. -/
lemma c3_replenish :
    ReplenishMarket c3State c3Rand 0 =
      some ({ c3State with
              market := MarketTick c3State.market,
              boards := updateBoard c3State.boards "planet_a" [] }, ["planet_a"], 7) := by
  unfold ReplenishMarket
  dsimp only
  rw [show c3State.currentUniverse.planets = [c3PlanetA] from rfl,
    show c3State.currentUniverse = c3Universe from rfl, c3_loop]

/-- Counterexample for C3: on `c3State` (cargo board empty, minimum 2,
maximum 2, source heat 2.0) the run of ReplenishMarket with the 0.9-draw
oracle skips both generation units: the cargo count stays 0, which is
neither "unchanged from a count already at or above the minimum" nor in
[minimum, maximum]. -/
theorem replenish_skip_cex :
    ∃ out, ReplenishMarket c3State c3Rand 0 = some out ∧
      countType (c3State.boards "planet_a") "cargo" = 0 ∧
      cargoTargets c3PlanetA = (2, 2) ∧
      countType (out.1.boards "planet_a") "cargo" = 0 ∧
      ¬ ReplenishedOK (countType (c3State.boards "planet_a") "cargo")
          (countType (out.1.boards "planet_a") "cargo")
          (cargoTargets c3PlanetA).1 (cargoTargets c3PlanetA).2 := by
  refine ⟨_, c3_replenish, rfl, rfl, rfl, ?_⟩
  intro hrep
  rcases hrep with ⟨h1, -⟩ | ⟨h1, -⟩ <;> revert h1 <;> decide

/-! ## C8: one owner per contract -/

/-- The spec's one-owner invariant, by contract identity: no contract id
aboard the ship also appears on any location's board. -/
def OneOwner (s : GameState) : Prop :=
  ∀ key, ∀ c ∈ s.ship.activeContracts, ∀ c' ∈ s.boards key, c.id ≠ c'.id

/-- Globally unique contract ids across the boards: each board is
duplicate-free and no id appears on two different boards. -/
def BoardIDsOK (s : GameState) : Prop :=
  (∀ key, ((s.boards key).map Contract.id).Nodup) ∧
  (∀ key key', key ≠ key' → ∀ c ∈ s.boards key, ∀ c' ∈ s.boards key', c.id ≠ c'.id)

/-- The remainder of a successful extraction is a sublist of the input. -/
lemma extract_rest_sub {l : List Contract} {cid : String} {t : Contract}
    {rest : List Contract} (h : extractContract l cid = some (t, rest)) :
    ∀ x ∈ rest, x ∈ l := by
  obtain ⟨-, l1, l2, hl, hr, -⟩ := extractContract_eq h
  subst hl
  subst hr
  intro x hx
  rcases List.mem_append.mp hx with h1 | h2
  · exact List.mem_append.mpr (Or.inl h1)
  · exact List.mem_append.mpr (Or.inr (List.mem_cons_of_mem _ h2))

/-- On a duplicate-free board, the extracted contract's id does not occur
in the remainder. -/
lemma extract_id_fresh {l : List Contract} {cid : String} {t : Contract}
    {rest : List Contract} (h : extractContract l cid = some (t, rest))
    (hnd : (l.map Contract.id).Nodup) : ∀ x ∈ rest, t.id ≠ x.id := by
  obtain ⟨-, l1, l2, hl, hr, -⟩ := extractContract_eq h
  subst hl
  subst hr
  rw [List.map_append, List.map_cons] at hnd
  rw [List.nodup_middle] at hnd
  have hnotin := (List.nodup_cons.mp hnd).1
  intro x hx hid
  apply hnotin
  rw [← List.map_append] at *
  rw [hid]
  exact List.mem_map_of_mem Contract.id hx

/-- A travel that succeeds keeps the boards and only removes contracts
from the ship. -/
lemma travel_ok_shape {s : GameState} {destKey : String} {s' : GameState}
    (h : HandleTravel s destKey = some (.ok s')) :
    s'.boards = s.boards ∧ ∀ c ∈ s'.ship.activeContracts, c ∈ s.ship.activeContracts := by
  simp only [HandleTravel] at h
  cases hdest : GetPlanet s.currentUniverse destKey with
  | none => rw [hdest] at h; cases h
  | some dest =>
      rw [hdest] at h
      cases hcur : GetPlanet s.currentUniverse s.ship.locationKey with
      | none => rw [hcur] at h; cases h
      | some cur =>
          rw [hcur] at h
          dsimp only at h
          by_cases hf : s.ship.fuel < CalculateDistance cur.coordinates dest.coordinates *
              CalculateCurrentBurn s.currentUniverse s.ship
          · rw [if_pos hf] at h
            cases Option.some.inj h
          · rw [if_neg hf] at h
            rw [deliverStep_foldl] at h
            obtain hs := Except.ok.inj (Option.some.inj h)
            rw [← hs]
            refine ⟨rfl, ?_⟩
            intro c hc
            simp only [List.nil_append] at hc
            exact List.mem_of_mem_filter hc

/-- A successful ReplenishMarket leaves the ship untouched. -/
lemma replenish_ship {s : GameState} {r : Rand} {k : Nat}
    {out : GameState × List String × Nat} (h : ReplenishMarket s r k = some out) :
    out.1.ship = s.ship := by
  obtain ⟨outS, outRest⟩ := out
  unfold ReplenishMarket at h
  dsimp only at h
  cases hl : replenishLoop s.currentUniverse (MarketTick s.market) r
      s.currentUniverse.planets s.boards k [] with
  | none => rw [hl] at h; cases h
  | some lout =>
      rw [hl] at h
      dsimp only at h
      obtain ⟨loutB, loutK, loutU⟩ := lout
      obtain ⟨hs, -⟩ := some_pair_inj h
      rw [← hs]

/-- C8 (amended): given globally unique contract ids and the one-owner
invariant, acceptance, drop and travel each preserve the one-owner
invariant; replenishment preserves it provided the contracts it adds to
boards have ids distinct from every contract aboard the ship (ids are
random and uniqueness is not checked, so this proviso can fail — see the
counterexample). -/
theorem one_owner_ops (s : GameState) (cid cid2 destKey : String) (r : Rand) (k : Nat)
    (hb : BoardIDsOK s) (hone : OneOwner s) :
    (∀ s', HandleAcceptContract s cid = .ok s' → OneOwner s') ∧
    (∀ s', HandleDropContract s cid2 = .ok s' → OneOwner s') ∧
    (∀ s', HandleTravel s destKey = some (.ok s') → OneOwner s') ∧
    (∀ out : GameState × List String × Nat, ReplenishMarket s r k = some out →
      (∀ key, ∀ c ∈ out.1.boards key, c ∉ s.boards key →
        ∀ c' ∈ s.ship.activeContracts, c'.id ≠ c.id) →
      OneOwner out.1) := by
  refine ⟨?_, ?_, ?_, ?_⟩
  · -- acceptance
    intro s' hok
    simp only [HandleAcceptContract] at hok
    cases hext : extractContract (s.boards s.ship.locationKey) cid with
    | none => rw [hext] at hok; cases hok
    | some p =>
        obtain ⟨target, newBoard⟩ := p
        rw [hext] at hok
        dsimp only at hok
        by_cases h1 : target.type = "cargo" ∧
            cargoLoad s.ship.activeContracts + target.quantity > s.ship.cargoCapacity
        · rw [if_pos h1] at hok; cases hok
        · rw [if_neg h1] at hok
          by_cases h2 : target.type = "passenger" ∧
              paxLoad s.ship.activeContracts + target.quantity > s.ship.passengerSlots
          · rw [if_pos h2] at hok; cases hok
          · rw [if_neg h2] at hok
            cases hok
            intro key c hc c' hc' hid
            have hbkey : c' ∈ (if key = s.ship.locationKey then newBoard else s.boards key) := hc'
            rcases List.mem_append.mp hc with hcold | hctgt
            · -- c was already aboard
              by_cases hkey : key = s.ship.locationKey
              · rw [if_pos hkey] at hbkey
                exact hone key c hcold c'
                  (by rw [hkey]; exact extract_rest_sub hext c' hbkey) hid
              · rw [if_neg hkey] at hbkey
                exact hone key c hcold c' hbkey hid
            · -- c is the freshly accepted target
              obtain rfl : c = target := by simpa using hctgt
              by_cases hkey : key = s.ship.locationKey
              · rw [if_pos hkey] at hbkey
                exact extract_id_fresh hext (hb.1 s.ship.locationKey) c' hbkey hid
              · rw [if_neg hkey] at hbkey
                exact hb.2 s.ship.locationKey key (fun he => hkey he.symm) c
                  (extractContract_mem hext) c' hbkey hid
  · -- drop
    intro s' hok
    simp only [HandleDropContract] at hok
    cases hext : extractContract s.ship.activeContracts cid2 with
    | none => rw [hext] at hok; cases hok
    | some p =>
        obtain ⟨target, rest⟩ := p
        rw [hext] at hok
        dsimp only at hok
        cases hok
        intro key c hc c' hc' hid
        exact hone key c (extract_rest_sub hext c hc) c' hc' hid
  · -- travel
    intro s' hok
    obtain ⟨hboards, hsub⟩ := travel_ok_shape hok
    intro key c hc c' hc' hid
    rw [hboards] at hc'
    exact hone key c (hsub c hc) c' hc' hid
  · -- replenish with fresh ids
    intro out hout hfresh
    intro key c hc c' hc' hid
    rw [replenish_ship hout] at hc
    by_cases hold : c' ∈ s.boards key
    · exact hone key c hc c' hold hid
    · exact hfresh key c' hc' hold c hc hid

/-- A cargo contract aboard the ship with the id "CRG-0-0". -/
def c8ShipContract : Contract :=
  { id := "CRG-0-0", type := "cargo", itemName := "Ore", itemKey := "ore",
    quantity := 5, massPerUnit := 1, originKey := "planet_a",
    destinationKey := "planet_b", payout := 10 }

/-- A planet that wants exactly one cargo contract. -/
def c8PlanetA : Planet :=
  { key := "planet_a", name := "Alpha", coordinates := [0, 0], production := ["ore"],
    demand := [], minCargo := 1, maxCargo := 1, minPassengers := 0, maxPassengers := 5 }

/-- A destination planet whose board needs nothing. -/
def c8PlanetB : Planet :=
  { key := "planet_b", name := "Beta", coordinates := [3, 4], production := [],
    demand := [], minCargo := 0, maxCargo := 5, minPassengers := 0, maxPassengers := 5 }

/-- The two-planet universe of the id-collision counterexample. -/
def c8Universe : Universe :=
  { balanceConfig := demoBalance, commodities := [demoOre],
    planets := [c8PlanetA, c8PlanetB], shipModules := [],
    passengerConfig := { baseTicketPrice := 50, massPerPassenger := 80 } }

/-- A fully neutral market over both planets. -/
def c8Market : MarketState :=
  { sourceHeat := [("planet_a", [("ore", 1)]), ("planet_b", [("ore", 1)])],
    destHeat := [("planet_a", [("ore", 1)]), ("planet_b", [("ore", 1)])] }

/-- Ship holding "CRG-0-0", boards empty: the one-owner invariant holds. -/
def c8State : GameState :=
  { currentUniverse := c8Universe,
    ship := { demoShip with activeContracts := [c8ShipContract] },
    boards := fun _ => [], market := c8Market }

/-- Oracle streams whose id draws are all 0 (so the generated id is
"CRG-0-0") and whose destination draw (cursor 3) picks the second planet. -/
def c8Rand : Rand :=
  { ints := fun k => if k = 3 then 1 else 0, floats := fun _ => 0, times := fun _ => 0 }

/-- Witness for C8 (amended): dropping the contract from the ship keeps
the one-owner invariant. -/
theorem one_owner_ops_witness :
    OneOwner ({ c8State with
      ship := { c8State.ship with activeContracts := [] } } : GameState) :=
  (one_owner_ops c8State "x" "CRG-0-0" "y" demoRand 0
    ⟨fun _ => List.nodup_nil, fun _ _ _ c hc => absurd hc (List.not_mem_nil c)⟩
    (fun _ _ _ c' hc' => absurd hc' (List.not_mem_nil c'))).2.1 _ rfl

/-- Neutral heat is a fixed point of the tick step. -/
lemma tickHeat_one : tickHeat 1 = 1 := by
  unfold tickHeat
  norm_num

/-- The tick leaves the neutral counterexample market unchanged. -/
lemma c8_tick : MarketTick c8State.market = c8Market := by
  show MarketTick c8Market = c8Market
  unfold MarketTick tickMap c8Market
  simp only [List.map_cons, List.map_nil, tickHeat_one]

/-- The contract the counterexample generation run produces: its id
collides with the one aboard the ship. -/
def c8GenContract : Contract :=
  { id := "CRG-0-0", type := "cargo", itemName := "Ore", itemKey := "ore",
    quantity := 5, massPerUnit := 1, originKey := "planet_a",
    destinationKey := "planet_b", payout := truncQ ((35 : ℚ) * (1 / 1)) }

/-- Commodity choice of the counterexample generation unit. -/
lemma c8_pick : pickCommodity c8Universe c8PlanetA c8Rand 1 = some (demoOre, 3) := by
  unfold pickCommodity
  rw [if_neg (by decide), if_pos (by show (0:ℚ) < 4 / 5; norm_num)]
  rfl

/-- The counterexample generation unit: neutral heat, no skip, and the
all-zero id draws produce "CRG-0-0". -/
lemma c8_unit : genCargoUnit c8Universe (MarketTick c8State.market) c8PlanetA c8Rand 1 =
    some (some c8GenContract, 7) := by
  unfold genCargoUnit
  rw [c8_pick]
  dsimp only
  have hheat : heatLookup (MarketTick c8State.market).sourceHeat c8PlanetA.key demoOre.key
      = 1 := by rw [c8_tick]; rfl
  rw [hheat]
  rw [if_neg (fun hc => absurd hc.1 (by norm_num)), if_neg (by norm_num)]
  rw [show pickDest c8Universe.planets c8PlanetA.key c8Rand 3 resampleBound
      = some (c8PlanetB, 4) from rfl]
  dsimp only
  have hdest : heatLookup (MarketTick c8State.market).destHeat c8PlanetB.key demoOre.key
      = 1 := by rw [c8_tick]; rfl
  rw [hdest]
  rw [show CalculateDistance c8PlanetA.coordinates c8PlanetB.coordinates = 5 from calcDist_demo]
  rfl

/-- The single-unit generation run of the counterexample. -/
lemma c8_jobs :
    generateCargoJobs c8Universe (MarketTick c8State.market) c8PlanetA c8Rand 1 1 =
      some ([c8GenContract], 7) := by
  have e1 : generateCargoJobs c8Universe (MarketTick c8State.market) c8PlanetA c8Rand 1 1 =
      (match genCargoUnit c8Universe (MarketTick c8State.market) c8PlanetA c8Rand 1 with
       | none => none
       | some (job?, k1) =>
          match generateCargoJobs c8Universe (MarketTick c8State.market) c8PlanetA c8Rand k1 0 with
          | none => none
          | some (jobs, k2) => some (job?.toList ++ jobs, k2)) := rfl
  rw [e1, c8_unit]
  rfl

/-- The cargo phase of the counterexample: the colliding contract lands on
planet_a's board. -/
lemma c8_cargo :
    replenishCargo c8Universe (MarketTick c8State.market) c8Rand c8State.boards c8PlanetA 0 [] =
      some (updateBoard c8State.boards "planet_a" [c8GenContract], 7, ["planet_a"]) := by
  unfold replenishCargo
  dsimp only
  rw [if_pos (by decide)]
  rw [show randIntn c8Rand 0 ((cargoTargets c8PlanetA).2 - (cargoTargets c8PlanetA).1 + 1)
      = some (0, 1) from rfl]
  dsimp only
  rw [if_pos (by decide)]
  rw [show ((0 : Int) + (cargoTargets c8PlanetA).1 -
      (countType (c8State.boards c8PlanetA.key) "cargo" : Int)).toNat = 1 from by decide]
  rw [c8_jobs]
  rfl

/-- The full per-planet step at planet_a: the passenger phase (minimum 0)
changes nothing. -/
lemma c8_planetA :
    replenishPlanet c8Universe (MarketTick c8State.market) c8Rand c8State.boards c8PlanetA 0 [] =
      some (updateBoard c8State.boards "planet_a" [c8GenContract], 7, ["planet_a"]) := by
  unfold replenishPlanet
  rw [c8_cargo]
  dsimp only
  unfold replenishPax
  rw [if_neg (by decide)]

/-- The counterexample planet loop: planet_b needs nothing. -/
lemma c8_loop :
    replenishLoop c8Universe (MarketTick c8State.market) c8Rand [c8PlanetA, c8PlanetB]
        c8State.boards 0 [] =
      some (updateBoard c8State.boards "planet_a" [c8GenContract], 7, ["planet_a"]) := by
  unfold replenishLoop
  rw [c8_planetA]
  dsimp only
  rfl

/-- The full counterexample run of ReplenishMarket. -/
lemma c8_replenish :
    ReplenishMarket c8State c8Rand 0 =
      some ({ c8State with
              market := MarketTick c8State.market,
              boards := updateBoard c8State.boards "planet_a" [c8GenContract] },
        ["planet_a"], 7) := by
  unfold ReplenishMarket
  dsimp only
  rw [show c8State.currentUniverse.planets = [c8PlanetA, c8PlanetB] from rfl,
    show c8State.currentUniverse = c8Universe from rfl, c8_loop]

/-- Counterexample for C8: the one-owner invariant holds of `c8State`, yet
one ReplenishMarket run generates a board contract whose id "CRG-0-0"
equals the id of a contract aboard the ship — afterwards the contract id
has two owners. -/
theorem one_owner_replenish_cex :
    OneOwner c8State ∧
    ∃ out, ReplenishMarket c8State c8Rand 0 = some out ∧
      c8ShipContract ∈ out.1.ship.activeContracts ∧
      c8GenContract ∈ out.1.boards "planet_a" ∧
      c8ShipContract.id = c8GenContract.id ∧
      ¬ OneOwner out.1 := by
  refine ⟨fun _ c _ c' hc' => absurd hc' (List.not_mem_nil c'), _, c8_replenish,
    List.mem_cons_self _ _, ?_, rfl, ?_⟩
  · show c8GenContract ∈ updateBoard c8State.boards "planet_a" [c8GenContract] "planet_a"
    unfold updateBoard
    rw [if_pos rfl]
    exact List.mem_cons_self _ _
  · intro hone
    refine hone "planet_a" c8ShipContract (List.mem_cons_self _ _) c8GenContract ?_ rfl
    show c8GenContract ∈ updateBoard c8State.boards "planet_a" [c8GenContract] "planet_a"
    unfold updateBoard
    rw [if_pos rfl]
    exact List.mem_cons_self _ _

end Galaxies
